import Mathlib

/-!
Verification of the document classification / structured-extraction /
rendering pipeline of the `prompts` package (`prompt_manager.py`,
`document_schemas.py`).

The embedding works over `List Char` for text. JSON numbers are modelled as
exact decimals (`Dec`, meaning `man * 10 ^ exp`); Python floats are treated
as exact decimal values, which agrees with the source on every value the
claims exercise. `json.loads` is embedded as a fuel-based recursive-descent
parser over the JSON grammar; Pydantic v2 validation of the five schema
classes is embedded field by field following `document_schemas.py`.
-/

set_option maxRecDepth 4000

/-- Whitespace skipped by `json.loads` between JSON tokens: space, tab,
linefeed, carriage return. -/
def jsonWsChar (c : Char) : Bool :=
  c == ' ' || c == '\t' || c == '\n' || c == '\r'

/-- Whitespace removed by Python's `str.strip()` (the ASCII part; the
claims only exercise ASCII text). -/
def pyWsChar (c : Char) : Bool :=
  c == ' ' || c == '\t' || c == '\n' || c == '\r' || c == '\x0b' || c == '\x0c'

/-- Drop leading characters satisfying `p` (left half of `str.strip()`). -/
def trimLeft (p : Char → Bool) (l : List Char) : List Char :=
  l.dropWhile p

/-- Drop trailing characters satisfying `p` (right half of `str.strip()`). -/
def trimRight (p : Char → Bool) (l : List Char) : List Char :=
  (l.reverse.dropWhile p).reverse

/-- Python `str.strip()`. -/
def pyStrip (l : List Char) : List Char :=
  trimRight pyWsChar (trimLeft pyWsChar l)

/-- Exact decimal number: the value `man * 10 ^ exp`. This stands in for the
Python `int`/`float` values produced by `json.loads`; the pipeline's numeric
fields are all `Optional[float]` so the int/float distinction never matters
after validation. -/
structure Dec where
  man : Int
  exp : Int
deriving DecidableEq

/-- Strip factors of ten out of the mantissa into the exponent; canonical
zero is `⟨0, 0⟩`. Fuel-based so that the kernel can evaluate it. -/
def decNormLoop : Nat → Int → Int → Dec
  | 0, m, e => ⟨m, e⟩
  | f + 1, m, e =>
    if m = 0 then ⟨0, 0⟩
    else if m % 10 = 0 then decNormLoop f (m / 10) (e + 1)
    else ⟨m, e⟩

/-- Canonical form of a decimal (same value, mantissa not divisible by ten). -/
def Dec.normalize (d : Dec) : Dec :=
  decNormLoop (d.man.natAbs + 1) d.man d.exp

/-- The canonical-form predicate `Dec.normalize` establishes. -/
def Dec.Norm (d : Dec) : Prop :=
  (d.man = 0 → d.exp = 0) ∧ (d.man ≠ 0 → ¬ (10 : Int) ∣ d.man)

instance (d : Dec) : Decidable d.Norm := by
  unfold Dec.Norm; infer_instance

/-- Numeric value of a decimal, as a rational. -/
def Dec.toRat (d : Dec) : ℚ :=
  (d.man : ℚ) * (10 : ℚ) ^ d.exp

/-- Decidable test that two decimals denote the same number. -/
def Dec.sameVal (a b : Dec) : Bool :=
  if a.exp ≤ b.exp then a.man = b.man * 10 ^ (b.exp - a.exp).toNat
  else a.man * 10 ^ (a.exp - b.exp).toNat = b.man

/-- JSON values as produced by `json.loads`: objects keep string keys; a
repeated key is resolved by lookup taking the last occurrence, as a Python
dict built left to right does. -/
inductive Json where
  | null
  | bool (b : Bool)
  | num (d : Dec)
  | str (s : List Char)
  | arr (elems : List Json)
  | obj (fields : List (List Char × Json))

/-- Last-occurrence lookup of a key in a JSON object's field list (Python
dict semantics: a later duplicate key overwrites an earlier one). -/
def jGet (fields : List (List Char × Json)) (k : List Char) : Option Json :=
  fields.foldl (fun acc kv => if kv.1 == k then some kv.2 else acc) none

/-- ASCII digit test. -/
def isDigitC (c : Char) : Bool :=
  '0' ≤ c && c ≤ '9'

/-- Value of an ASCII digit character. -/
def dval (c : Char) : Nat :=
  c.toNat - 48

/-- Value of a digit string, most significant digit first. -/
def natVal (l : List Char) : Nat :=
  l.foldl (fun a c => a * 10 + dval c) 0

/-- Value of a hexadecimal digit character, if it is one. -/
def hexVal (c : Char) : Option Nat :=
  if '0' ≤ c && c ≤ '9' then some (c.toNat - 48)
  else if 'a' ≤ c && c ≤ 'f' then some (c.toNat - 87)
  else if 'A' ≤ c && c ≤ 'F' then some (c.toNat - 55)
  else none

/-- Value of four hexadecimal digit characters. -/
def hex4 (a b c d : Char) : Option Nat :=
  match hexVal a, hexVal b, hexVal c, hexVal d with
  | some x, some y, some z, some w => some (((x * 16 + y) * 16 + z) * 16 + w)
  | _, _, _, _ => none

/-- Assemble a parsed JSON number from its sign, integer digits, fraction
digits and exponent, in normalized decimal form. -/
def mkDec (neg : Bool) (ids fds : List Char) (e10 : Int) : Dec :=
  let mraw : Int := (natVal ids * 10 ^ fds.length + natVal fds : Nat)
  Dec.normalize ⟨if neg then -mraw else mraw, e10 - fds.length⟩

/-- Parse the exponent digits of a JSON number (after `e`/`E` and sign). -/
def pNumExpDigits (neg : Bool) (ids fds : List Char) (esign : Int)
    (cs : List Char) : Option (Dec × List Char) :=
  if (cs.takeWhile isDigitC).isEmpty then none
  else some (mkDec neg ids fds (esign * (natVal (cs.takeWhile isDigitC) : Int)),
    cs.dropWhile isDigitC)

/-- Parse the optional exponent part of a JSON number. -/
def pNumExpPart (neg : Bool) (ids fds : List Char) :
    List Char → Option (Dec × List Char)
  | [] => some (mkDec neg ids fds 0, [])
  | c :: r =>
    if c == 'e' || c == 'E' then
      match r with
      | [] => pNumExpDigits neg ids fds 1 []
      | c2 :: r2 =>
        if c2 == '+' then pNumExpDigits neg ids fds 1 r2
        else if c2 == '-' then pNumExpDigits neg ids fds (-1) r2
        else pNumExpDigits neg ids fds 1 (c2 :: r2)
    else some (mkDec neg ids fds 0, c :: r)

/-- Parse the optional fraction part of a JSON number, then its exponent. -/
def pNumFracPart (neg : Bool) (ids : List Char) :
    List Char → Option (Dec × List Char)
  | [] => pNumExpPart neg ids [] []
  | c :: r =>
    if c == '.' then
      if (r.takeWhile isDigitC).isEmpty then none
      else pNumExpPart neg ids (r.takeWhile isDigitC) (r.dropWhile isDigitC)
    else pNumExpPart neg ids [] (c :: r)

/-- Parse the digits of a JSON number after the optional minus sign:
integer digits with no leading zero, optional fraction, optional
exponent. -/
def pNumBody (neg : Bool) (cs1 : List Char) : Option (Dec × List Char) :=
  if (cs1.takeWhile isDigitC).isEmpty then none
  else if (cs1.takeWhile isDigitC).length ≥ 2 &&
      (cs1.takeWhile isDigitC).headI == '0' then none
  else pNumFracPart neg (cs1.takeWhile isDigitC) (cs1.dropWhile isDigitC)

/-- Parse a JSON number starting at the first character of `cs`, exactly
the grammar `json.loads` accepts. -/
def pNum : List Char → Option (Dec × List Char)
  | [] => pNumBody false []
  | c :: r => if c == '-' then pNumBody true r else pNumBody false (c :: r)

/-- Parse the body of a JSON string after the opening quote: literal
characters, the nine simple escapes and `\uXXXX` for scalar values, up to
the closing quote. Returns the decoded characters and the remainder.
Surrogate escapes (`\uD800`-`\uDFFF`, lone or paired) are not modelled:
Lean's `Char` cannot carry lone surrogates at all, and no claim exercises
astral-plane escapes. -/
def pStr : List Char → Option (List Char × List Char)
  | [] => none
  | '"' :: r => some ([], r)
  | '\\' :: 'u' :: h1 :: h2 :: h3 :: h4 :: r =>
    match hex4 h1 h2 h3 h4 with
    | none => none
    | some n =>
      if 0xD800 ≤ n ∧ n ≤ 0xDFFF then none
      else
        match pStr r with
        | some (s, r2) => some (Char.ofNat n :: s, r2)
        | none => none
  | '\\' :: e :: r =>
    match pStr r with
    | some (s, r2) =>
      match e with
      | '"' => some ('"' :: s, r2)
      | '\\' => some ('\\' :: s, r2)
      | '/' => some ('/' :: s, r2)
      | 'b' => some ('\x08' :: s, r2)
      | 'f' => some ('\x0c' :: s, r2)
      | 'n' => some ('\n' :: s, r2)
      | 'r' => some ('\r' :: s, r2)
      | 't' => some ('\t' :: s, r2)
      | _ => none
    | none => none
  | c :: r =>
    if c.toNat < 32 then none
    else
      match pStr r with
      | some (s, r2) => some (c :: s, r2)
      | none => none

mutual

/-- Parse one JSON value (after skipping whitespace). Fuel-based mutual
recursion embedding the recursive descent of `json.loads`. -/
def pVal : Nat → List Char → Option (Json × List Char)
  | 0, _ => none
  | f + 1, cs =>
    match cs.dropWhile jsonWsChar with
    | 'n' :: 'u' :: 'l' :: 'l' :: r => some (.null, r)
    | 't' :: 'r' :: 'u' :: 'e' :: r => some (.bool true, r)
    | 'f' :: 'a' :: 'l' :: 's' :: 'e' :: r => some (.bool false, r)
    | '"' :: r =>
      match pStr r with
      | some (s, r2) => some (.str s, r2)
      | none => none
    | '{' :: r =>
      match r.dropWhile jsonWsChar with
      | '}' :: r2 => some (.obj [], r2)
      | _ =>
        match pMembers f r with
        | some (kvs, r2) => some (.obj kvs, r2)
        | none => none
    | '[' :: r =>
      match r.dropWhile jsonWsChar with
      | ']' :: r2 => some (.arr [], r2)
      | _ =>
        match pElems f r with
        | some (vs, r2) => some (.arr vs, r2)
        | none => none
    | c :: r =>
      if c == '-' || isDigitC c then
        match pNum (c :: r) with
        | some (d, r2) => some (.num d, r2)
        | none => none
      else none
    | [] => none

/-- Parse one or more `"key": value` members of a JSON object, consuming the
closing `}`. -/
def pMembers : Nat → List Char → Option (List (List Char × Json) × List Char)
  | 0, _ => none
  | f + 1, cs =>
    match cs.dropWhile jsonWsChar with
    | '"' :: r =>
      match pStr r with
      | some (k, r1) =>
        match r1.dropWhile jsonWsChar with
        | ':' :: r2 =>
          match pVal f r2 with
          | some (v, r3) =>
            match r3.dropWhile jsonWsChar with
            | ',' :: r4 =>
              match pMembers f r4 with
              | some (kvs, r5) => some ((k, v) :: kvs, r5)
              | none => none
            | '}' :: r4 => some ([(k, v)], r4)
            | _ => none
          | none => none
        | _ => none
      | none => none
    | _ => none

/-- Parse one or more elements of a JSON array, consuming the closing `]`. -/
def pElems : Nat → List Char → Option (List Json × List Char)
  | 0, _ => none
  | f + 1, cs =>
    match pVal f cs with
    | some (v, r1) =>
      match r1.dropWhile jsonWsChar with
      | ',' :: r2 =>
        match pElems f r2 with
        | some (vs, r3) => some (v :: vs, r3)
        | none => none
      | ']' :: r2 => some ([v], r2)
      | _ => none
    | none => none

end

/-- Embedding of `json.loads`: parse a complete JSON document, requiring
that nothing but whitespace follow the value (Python raises `Extra data`
otherwise, which the pipeline's caller sees as a parse failure). -/
def Json.parse (cs : List Char) : Option Json :=
  match pVal (cs.length + 1) cs with
  | some (v, r) => if (r.dropWhile jsonWsChar).isEmpty then some v else none
  | none => none

example : Json.parse "\x7b\"a\": 1.50\x7d".data
    = some (.obj [("a".data, .num ⟨15, -1⟩)]) := by rfl

example : Json.parse "  [null, true, -12e2, \"h\\u0041i\"] ".data
    = some (.arr [.null, .bool true, .num ⟨-12, 2⟩, .str "hAi".data]) := by rfl

example : Json.parse "\x7b broken json".data = none := by rfl

example : Json.parse "01".data = none := by rfl

/-- The closed document-type enumeration of `document_schemas.py`. -/
inductive DocumentType where
  | bank_statement
  | insurance_form
  | accident_claim
  | invoice
  | receipt
  | contract
  | other
deriving DecidableEq

/-- The string value of a `DocumentType` member (it is a `str`-valued enum). -/
def docTypeValue : DocumentType → List Char
  | .bank_statement => "bank_statement".data
  | .insurance_form => "insurance_form".data
  | .accident_claim => "accident_claim".data
  | .invoice => "invoice".data
  | .receipt => "receipt".data
  | .contract => "contract".data
  | .other => "other".data

/-- Pydantic validation of a string against the `DocumentType` enum: exactly
the seven member values are accepted. -/
def docTypeFromValue (s : List Char) : Option DocumentType :=
  if s == "bank_statement".data then some .bank_statement
  else if s == "insurance_form".data then some .insurance_form
  else if s == "accident_claim".data then some .accident_claim
  else if s == "invoice".data then some .invoice
  else if s == "receipt".data then some .receipt
  else if s == "contract".data then some .contract
  else if s == "other".data then some .other
  else none

/-- The bank-transaction category enumeration. -/
inductive TransactionType where
  | debit
  | credit
  | transfer
  | fee
  | interest
deriving DecidableEq

/-- The string value of a `TransactionType` member. -/
def txnTypeValue : TransactionType → List Char
  | .debit => "debit".data
  | .credit => "credit".data
  | .transfer => "transfer".data
  | .fee => "fee".data
  | .interest => "interest".data

/-- Pydantic validation of a string against the `TransactionType` enum. -/
def txnTypeFromValue (s : List Char) : Option TransactionType :=
  if s == "debit".data then some .debit
  else if s == "credit".data then some .credit
  else if s == "transfer".data then some .transfer
  else if s == "fee".data then some .fee
  else if s == "interest".data then some .interest
  else none

/-- `Transaction` model of `document_schemas.py`: every field optional. -/
structure Transaction where
  date : Option (List Char)
  description : Option (List Char)
  amount : Option Dec
  balance : Option Dec
  transaction_type : Option TransactionType
  reference : Option (List Char)
deriving DecidableEq

/-- `BankStatementSchema` of `document_schemas.py`, fields in declaration
order; `document_type` defaults to `bank_statement` but is typed as the
whole enum. -/
structure BankStatementSchema where
  document_type : DocumentType
  account_holder : Option (List Char)
  account_number : Option (List Char)
  bank_name : Option (List Char)
  statement_period : Option (List Char)
  opening_balance : Option Dec
  closing_balance : Option Dec
  total_credits : Option Dec
  total_debits : Option Dec
  transactions : List Transaction
  address : Option (List Char)
  phone : Option (List Char)
  email : Option (List Char)
deriving DecidableEq

/-- `InsuranceClaimSchema` of `document_schemas.py`. -/
structure InsuranceClaimSchema where
  document_type : DocumentType
  policy_number : Option (List Char)
  claim_number : Option (List Char)
  insured_name : Option (List Char)
  incident_date : Option (List Char)
  incident_description : Option (List Char)
  claim_amount : Option Dec
  policy_type : Option (List Char)
  address : Option (List Char)
  phone : Option (List Char)
  email : Option (List Char)
deriving DecidableEq

/-- `AccidentClaimSchema` of `document_schemas.py`. -/
structure AccidentClaimSchema where
  document_type : DocumentType
  claim_number : Option (List Char)
  claimant_name : Option (List Char)
  accident_date : Option (List Char)
  accident_location : Option (List Char)
  accident_description : Option (List Char)
  vehicle_details : Option (List Char)
  damage_amount : Option Dec
  police_report : Option (List Char)
  witnesses : Option (List (List Char))
  address : Option (List Char)
  phone : Option (List Char)
  email : Option (List Char)
deriving DecidableEq

/-- `InvoiceSchema` of `document_schemas.py`. -/
structure InvoiceSchema where
  document_type : DocumentType
  invoice_number : Option (List Char)
  invoice_date : Option (List Char)
  due_date : Option (List Char)
  vendor_name : Option (List Char)
  customer_name : Option (List Char)
  total_amount : Option Dec
  tax_amount : Option Dec
  subtotal : Option Dec
  items : Option (List (List Char))
  vendor_address : Option (List Char)
  customer_address : Option (List Char)
deriving DecidableEq

/-- `GeneralDocumentSchema` of `document_schemas.py`; `key_information` is a
free `Dict[str, Any]`, kept as a JSON field list. -/
structure GeneralDocumentSchema where
  document_type : DocumentType
  title : Option (List Char)
  date : Option (List Char)
  parties : Option (List (List Char))
  addresses : Option (List (List Char))
  phone_numbers : Option (List (List Char))
  email_addresses : Option (List (List Char))
  amounts : Option (List Dec)
  dates : Option (List (List Char))
  key_information : Option (List (List Char × Json))

/-- Python `float(s)` on the strings Pydantic v2 coerces into a float field:
optional sign, digits with an optional decimal point (at least one digit),
optional exponent; the whole string must be consumed. -/
def pyFloatFinish (neg : Bool) (ids fds : List Char) :
    List Char → Option Dec
  | [] => some (mkDec neg ids fds 0)
  | 'e' :: r => pyFloatExpoTail neg ids fds r
  | 'E' :: r => pyFloatExpoTail neg ids fds r
  | _ => none
where
  pyFloatExpoTail (neg : Bool) (ids fds : List Char) (cs : List Char) :
      Option Dec :=
    let (esign, cs1) : Int × List Char :=
      match cs with
      | '+' :: r => (1, r)
      | '-' :: r => (-1, r)
      | _ => (1, cs)
    let eds := cs1.takeWhile isDigitC
    if eds.isEmpty then none
    else if (cs1.dropWhile isDigitC).isEmpty then
      some (mkDec neg ids fds (esign * (natVal eds : Int)))
    else none

/-- Parse a full numeric string as Pydantic's lax string-to-float coercion
does (modulo exotic forms such as `inf`, which no claim exercises). -/
def pyFloatOfStr (s : List Char) : Option Dec :=
  let (neg, s1) : Bool × List Char :=
    match s with
    | '+' :: r => (false, r)
    | '-' :: r => (true, r)
    | _ => (false, s)
  let ids := s1.takeWhile isDigitC
  let s2 := s1.dropWhile isDigitC
  match s2 with
  | '.' :: r =>
    let fds := r.takeWhile isDigitC
    if ids.isEmpty && fds.isEmpty then none
    else pyFloatFinish neg ids fds (r.dropWhile isDigitC)
  | _ =>
    if ids.isEmpty then none else pyFloatFinish neg ids [] s2

/-- Pydantic validation of an `Optional[str]` field: absent and `null` give
`None`; a JSON string passes; anything else fails the record. -/
def vStrOpt : Option Json → Option (Option (List Char))
  | none => some none
  | some .null => some none
  | some (.str s) => some (some s)
  | some _ => none

/-- Pydantic validation of an `Optional[float]` field: absent and `null`
give `None`; a number passes (int or float alike); a numeric string is
coerced; booleans and everything else fail the record. -/
def vFloatOpt : Option Json → Option (Option Dec)
  | none => some none
  | some .null => some none
  | some (.num d) => some (some d.normalize)
  | some (.str s) =>
    match pyFloatOfStr s with
    | some d => some (some d)
    | none => none
  | some _ => none

/-- Pydantic validation of the `Optional[TransactionType]` field. -/
def vTxnTypeOpt : Option Json → Option (Option TransactionType)
  | none => some none
  | some .null => some none
  | some (.str s) =>
    match txnTypeFromValue s with
    | some t => some (some t)
    | none => none
  | some _ => none

/-- Pydantic validation of the `document_type` field of a schema whose
default is `dflt`: absent gives the default; any of the seven enum values is
accepted (the field is typed as the whole enum, not a literal); `null` and
non-strings fail the record. -/
def vDocType (dflt : DocumentType) : Option Json → Option DocumentType
  | none => some dflt
  | some (.str s) => docTypeFromValue s
  | some _ => none

/-- Validate one element of the `transactions` list: it must be a JSON
object; its six optional fields are validated as in the `Transaction`
model, extra keys ignored. -/
def vTxn : Json → Option Transaction
  | .obj kvs => do
    let date ← vStrOpt (jGet kvs "date".data)
    let description ← vStrOpt (jGet kvs "description".data)
    let amount ← vFloatOpt (jGet kvs "amount".data)
    let balance ← vFloatOpt (jGet kvs "balance".data)
    let ttype ← vTxnTypeOpt (jGet kvs "transaction_type".data)
    let reference ← vStrOpt (jGet kvs "reference".data)
    pure ⟨date, description, amount, balance, ttype, reference⟩
  | _ => none

/-- Validate every element of a transactions array; any bad element fails
the whole record (Pydantic whole-model failure). -/
def vTxns : List Json → Option (List Transaction)
  | [] => some []
  | j :: r =>
    match vTxn j, vTxns r with
    | some t, some ts => some (t :: ts)
    | _, _ => none

/-- Pydantic validation of `List[Transaction]` with `default_factory=list`:
absent gives `[]`; a JSON array is validated elementwise; `null` and
non-arrays fail the record (the field is not `Optional`). -/
def vTxnList : Option Json → Option (List Transaction)
  | none => some []
  | some (.arr l) => vTxns l
  | some _ => none

/-- Validate the elements of a `List[str]` value. -/
def vStrs : List Json → Option (List (List Char))
  | [] => some []
  | .str s :: r =>
    match vStrs r with
    | some ss => some (s :: ss)
    | none => none
  | _ => none

/-- Pydantic validation of `Optional[List[str]]` with
`default_factory=list`: absent gives `[]`, `null` gives `None`. -/
def vStrListOpt : Option Json → Option (Option (List (List Char)))
  | none => some (some [])
  | some .null => some none
  | some (.arr l) =>
    match vStrs l with
    | some ss => some (some ss)
    | none => none
  | some _ => none

/-- Validate the elements of a `List[float]` value (numbers, or numeric
strings by lax coercion). -/
def vFloats : List Json → Option (List Dec)
  | [] => some []
  | .num d :: r =>
    match vFloats r with
    | some ds => some (d.normalize :: ds)
    | none => none
  | .str s :: r =>
    match pyFloatOfStr s, vFloats r with
    | some d, some ds => some (d :: ds)
    | _, _ => none
  | _ => none

/-- Pydantic validation of `Optional[List[float]]` with
`default_factory=list`. -/
def vFloatListOpt : Option Json → Option (Option (List Dec))
  | none => some (some [])
  | some .null => some none
  | some (.arr l) =>
    match vFloats l with
    | some ds => some (some ds)
    | none => none
  | some _ => none

/-- Pydantic validation of `Optional[Dict[str, Any]]` with
`default_factory=dict`. -/
def vDictOpt : Option Json → Option (Option (List (List Char × Json)))
  | none => some (some [])
  | some .null => some none
  | some (.obj kvs) => some (some kvs)
  | some _ => none

/-- Pydantic construction `BankStatementSchema(**json_data)`: the payload
must be a JSON object (anything else raises a `TypeError` that the caller
catches); each declared field is validated, extra keys are ignored, any
field failure fails the whole record. -/
def vBank : Json → Option BankStatementSchema
  | .obj kvs => do
    let dt ← vDocType .bank_statement (jGet kvs "document_type".data)
    let account_holder ← vStrOpt (jGet kvs "account_holder".data)
    let account_number ← vStrOpt (jGet kvs "account_number".data)
    let bank_name ← vStrOpt (jGet kvs "bank_name".data)
    let statement_period ← vStrOpt (jGet kvs "statement_period".data)
    let opening_balance ← vFloatOpt (jGet kvs "opening_balance".data)
    let closing_balance ← vFloatOpt (jGet kvs "closing_balance".data)
    let total_credits ← vFloatOpt (jGet kvs "total_credits".data)
    let total_debits ← vFloatOpt (jGet kvs "total_debits".data)
    let transactions ← vTxnList (jGet kvs "transactions".data)
    let address ← vStrOpt (jGet kvs "address".data)
    let phone ← vStrOpt (jGet kvs "phone".data)
    let email ← vStrOpt (jGet kvs "email".data)
    pure ⟨dt, account_holder, account_number, bank_name, statement_period,
      opening_balance, closing_balance, total_credits, total_debits,
      transactions, address, phone, email⟩
  | _ => none

/-- Pydantic construction `InsuranceClaimSchema(**json_data)`. -/
def vInsurance : Json → Option InsuranceClaimSchema
  | .obj kvs => do
    let dt ← vDocType .insurance_form (jGet kvs "document_type".data)
    let policy_number ← vStrOpt (jGet kvs "policy_number".data)
    let claim_number ← vStrOpt (jGet kvs "claim_number".data)
    let insured_name ← vStrOpt (jGet kvs "insured_name".data)
    let incident_date ← vStrOpt (jGet kvs "incident_date".data)
    let incident_description ← vStrOpt (jGet kvs "incident_description".data)
    let claim_amount ← vFloatOpt (jGet kvs "claim_amount".data)
    let policy_type ← vStrOpt (jGet kvs "policy_type".data)
    let address ← vStrOpt (jGet kvs "address".data)
    let phone ← vStrOpt (jGet kvs "phone".data)
    let email ← vStrOpt (jGet kvs "email".data)
    pure ⟨dt, policy_number, claim_number, insured_name, incident_date,
      incident_description, claim_amount, policy_type, address, phone, email⟩
  | _ => none

/-- Pydantic construction `AccidentClaimSchema(**json_data)`. -/
def vAccident : Json → Option AccidentClaimSchema
  | .obj kvs => do
    let dt ← vDocType .accident_claim (jGet kvs "document_type".data)
    let claim_number ← vStrOpt (jGet kvs "claim_number".data)
    let claimant_name ← vStrOpt (jGet kvs "claimant_name".data)
    let accident_date ← vStrOpt (jGet kvs "accident_date".data)
    let accident_location ← vStrOpt (jGet kvs "accident_location".data)
    let accident_description ← vStrOpt (jGet kvs "accident_description".data)
    let vehicle_details ← vStrOpt (jGet kvs "vehicle_details".data)
    let damage_amount ← vFloatOpt (jGet kvs "damage_amount".data)
    let police_report ← vStrOpt (jGet kvs "police_report".data)
    let witnesses ← vStrListOpt (jGet kvs "witnesses".data)
    let address ← vStrOpt (jGet kvs "address".data)
    let phone ← vStrOpt (jGet kvs "phone".data)
    let email ← vStrOpt (jGet kvs "email".data)
    pure ⟨dt, claim_number, claimant_name, accident_date, accident_location,
      accident_description, vehicle_details, damage_amount, police_report,
      witnesses, address, phone, email⟩
  | _ => none

/-- Pydantic construction `InvoiceSchema(**json_data)`. -/
def vInvoice : Json → Option InvoiceSchema
  | .obj kvs => do
    let dt ← vDocType .invoice (jGet kvs "document_type".data)
    let invoice_number ← vStrOpt (jGet kvs "invoice_number".data)
    let invoice_date ← vStrOpt (jGet kvs "invoice_date".data)
    let due_date ← vStrOpt (jGet kvs "due_date".data)
    let vendor_name ← vStrOpt (jGet kvs "vendor_name".data)
    let customer_name ← vStrOpt (jGet kvs "customer_name".data)
    let total_amount ← vFloatOpt (jGet kvs "total_amount".data)
    let tax_amount ← vFloatOpt (jGet kvs "tax_amount".data)
    let subtotal ← vFloatOpt (jGet kvs "subtotal".data)
    let items ← vStrListOpt (jGet kvs "items".data)
    let vendor_address ← vStrOpt (jGet kvs "vendor_address".data)
    let customer_address ← vStrOpt (jGet kvs "customer_address".data)
    pure ⟨dt, invoice_number, invoice_date, due_date, vendor_name,
      customer_name, total_amount, tax_amount, subtotal, items,
      vendor_address, customer_address⟩
  | _ => none

/-- Pydantic construction `GeneralDocumentSchema(**json_data)`. -/
def vGeneral : Json → Option GeneralDocumentSchema
  | .obj kvs => do
    let dt ← vDocType .other (jGet kvs "document_type".data)
    let title ← vStrOpt (jGet kvs "title".data)
    let date ← vStrOpt (jGet kvs "date".data)
    let parties ← vStrListOpt (jGet kvs "parties".data)
    let addresses ← vStrListOpt (jGet kvs "addresses".data)
    let phone_numbers ← vStrListOpt (jGet kvs "phone_numbers".data)
    let email_addresses ← vStrListOpt (jGet kvs "email_addresses".data)
    let amounts ← vFloatListOpt (jGet kvs "amounts".data)
    let dates ← vStrListOpt (jGet kvs "dates".data)
    let key_information ← vDictOpt (jGet kvs "key_information".data)
    pure ⟨dt, title, date, parties, addresses, phone_numbers,
      email_addresses, amounts, dates, key_information⟩
  | _ => none

/-- The five Pydantic schema classes of `document_schemas.py`. -/
inductive SchemaClass where
  | bankStatementSchema
  | insuranceClaimSchema
  | accidentClaimSchema
  | invoiceSchema
  | generalDocumentSchema
deriving DecidableEq

/-- The `schema_mapping` dict literal of `get_schema_for_document_type`:
note that `receipt` and `contract` are absent and fall to the default. -/
def schemaMapping : List (DocumentType × SchemaClass) :=
  [(.bank_statement, .bankStatementSchema),
   (.insurance_form, .insuranceClaimSchema),
   (.accident_claim, .accidentClaimSchema),
   (.invoice, .invoiceSchema),
   (.other, .generalDocumentSchema)]

/-- `get_schema_for_document_type` of `document_schemas.py`:
`schema_mapping.get(doc_type, GeneralDocumentSchema)`. -/
def get_schema_for_document_type (t : DocumentType) : SchemaClass :=
  match schemaMapping.find? (fun p => p.1 == t) with
  | some p => p.2
  | none => .generalDocumentSchema

/-- The tagged union of validated records (`ExtractionOutcome`'s structured
side). -/
inductive ExtractionRecord where
  | bank (r : BankStatementSchema)
  | insurance (r : InsuranceClaimSchema)
  | accident (r : AccidentClaimSchema)
  | invoice (r : InvoiceSchema)
  | general (r : GeneralDocumentSchema)

/-- `schema_class(**json_data)` after the registry lookup: validate `j`
against the schema class selected for `t`. -/
def validateFor (t : DocumentType) (j : Json) : Option ExtractionRecord :=
  match get_schema_for_document_type t with
  | .bankStatementSchema => (vBank j).map .bank
  | .insuranceClaimSchema => (vInsurance j).map .insurance
  | .accidentClaimSchema => (vAccident j).map .accident
  | .invoiceSchema => (vInvoice j).map .invoice
  | .generalDocumentSchema => (vGeneral j).map .general

/-- The `type_mapping` dict literal of `classify_document_type`, in source
order. -/
def classifyTable : List (List Char × DocumentType) :=
  [("bank_statement".data, .bank_statement),
   ("bank statement".data, .bank_statement),
   ("statement".data, .bank_statement),
   ("insurance_form".data, .insurance_form),
   ("insurance form".data, .insurance_form),
   ("insurance".data, .insurance_form),
   ("accident_claim".data, .accident_claim),
   ("accident claim".data, .accident_claim),
   ("claim".data, .accident_claim),
   ("invoice".data, .invoice),
   ("receipt".data, .invoice),
   ("bill".data, .invoice),
   ("other".data, .other)]

/-- ASCII lowercasing, the fragment of `str.lower()` the pipeline's inputs
exercise. -/
def lowerChar (c : Char) : Char :=
  if 'A' ≤ c && c ≤ 'Z' then Char.ofNat (c.toNat + 32) else c

/-- The normalisation step of `classify_document_type`:
`classification_result.strip().lower()`. -/
def normalizeClassification (s : String) : List Char :=
  (pyStrip s.data).map lowerChar

/-- `PromptManager.classify_document_type`: normalise, then
`type_mapping.get(result, DocumentType.OTHER)` (an exact dict lookup). -/
def classify_document_type (s : String) : DocumentType :=
  match classifyTable.find? (fun p => p.1 == normalizeClassification s) with
  | some p => p.2
  | none => .other

/-- The response-cleaning step of `parse_structured_response`: strip, drop a
leading ```` ```json ```` (7 characters), drop a trailing ```` ``` ````
(3 characters), strip again. -/
def cleanResponseText (l : List Char) : List Char :=
  let c1 := pyStrip l
  let c2 := if "```json".data.isPrefixOf c1 then c1.drop 7 else c1
  let c3 := if "```".data.isSuffixOf c2 then c2.take (c2.length - 3) else c2
  pyStrip c3

/-- The `Union[DocumentSchema, str]` return type of
`parse_structured_response`: a validated structured record, or fallback
text. -/
inductive ExtractionOutcome where
  | structured (r : ExtractionRecord)
  | raw (s : String)

/-- `PromptManager.parse_structured_response` with the
`enable_structured_extraction` flag explicit: when disabled the raw text is
returned at once; otherwise clean, `json.loads`, registry lookup and
Pydantic validation, with both failure modes caught and downgraded to the
original text. -/
def parse_structured_response_cfg (enableStructuredExtraction : Bool)
    (responseText : String) (t : DocumentType) : ExtractionOutcome :=
  if enableStructuredExtraction = false then .raw responseText
  else
    match Json.parse (cleanResponseText responseText.data) with
    | none => .raw responseText
    | some j =>
      match validateFor t j with
      | some r => .structured r
      | none => .raw responseText

/-- `parse_structured_response` as the module-level `prompt_manager`
instance runs it (`enable_structured_extraction=True`). -/
def parse_structured_response (s : String) (t : DocumentType) :
    ExtractionOutcome :=
  parse_structured_response_cfg true s t

example : classify_document_type "  Bank Statement " = .bank_statement := by rfl

example : classify_document_type "xyz123" = .other := by rfl

example : parse_structured_response "\x7b\"document_type\":\"bank_statement\"\x7d"
    .bank_statement
    = .structured (.bank ⟨.bank_statement, none, none, none, none, none, none,
        none, none, [], none, none, none⟩) := by rfl

/-- ASCII digit character for a value below ten. -/
def digitChar (n : Nat) : Char :=
  Char.ofNat (48 + n)

/-- Decimal digits of a natural number, most significant first (fuel-based;
`natToChars` supplies ample fuel). -/
def natDigits : Nat → Nat → List Char
  | 0, _ => []
  | f + 1, n =>
    if n < 10 then [digitChar n]
    else natDigits f (n / 10) ++ [digitChar (n % 10)]

/-- Decimal digit string of a natural number. -/
def natToChars (n : Nat) : List Char :=
  natDigits (n + 1) n

/-- Round `m / p` (for positive `p`) to the nearest integer, ties to even:
the rounding Python's `format(x, '.2f')` applies. -/
def roundHalfEven (m p : Int) : Int :=
  let q := m / p
  let r := m % p
  if 2 * r < p then q
  else if 2 * r > p then q + 1
  else if q % 2 = 0 then q
  else q + 1

/-- Python `f"{x:.2f}"` on an exact decimal: round to two places, print with
exactly two digits after the point. -/
def fmt2 (d : Dec) : List Char :=
  let scaled : Int :=
    if 0 ≤ d.exp + 2 then d.man * 10 ^ (d.exp + 2).toNat
    else roundHalfEven d.man (10 ^ (-(d.exp + 2)).toNat)
  let a := scaled.natAbs
  (if scaled < 0 then ['-'] else []) ++
    natToChars (a / 100) ++ '.' ::
      (if a % 100 < 10 then '0' :: [digitChar (a % 100)] else natToChars (a % 100))

/-- Python `x or 0` on an optional float: `None` and `0.0` are falsy and
give `0`; any other value passes through. -/
def pyOrZero : Option Dec → Dec
  | none => ⟨0, 0⟩
  | some v => if v.man = 0 then ⟨0, 0⟩ else v

/-- The `${... or 0:.2f}` money interpolation of the markdown templates. -/
def money (x : Option Dec) : String :=
  "$" ++ (fmt2 (pyOrZero x)).asString

/-- Python `s or 'N/A'` on an optional string: `None` and the empty string
are falsy and give `'N/A'`. -/
def pyOrNA (x : Option (List Char)) : String :=
  match x with
  | some s => if s.isEmpty then "N/A" else s.asString
  | none => "N/A"

/-- Join strings with a separator (Python `sep.join(...)`). -/
def joinSepStr (sep : String) : List String → String
  | [] => ""
  | [x] => x
  | x :: r => x ++ sep ++ joinSepStr sep r

/-- One row of the transactions table in
`_format_bank_statement_markdown`. -/
def txnRow (txn : Transaction) : String :=
  "| " ++ pyOrNA txn.date ++ " | " ++ pyOrNA txn.description ++ " | " ++
    money txn.amount ++ " | " ++ money txn.balance ++ " |\n"

/-- Concatenate the transaction rows in list order. -/
def txnRows : List Transaction → String
  | [] => ""
  | t :: r => txnRow t ++ txnRows r

/-- The `if data.transactions:` section of the bank-statement template (an
empty list is falsy, so the section is omitted). -/
def bankTxnSection (l : List Transaction) : String :=
  match l with
  | [] => ""
  | _ =>
    "## Transactions\n\n" ++
      "| Date | Description | Amount | Balance |\n" ++
      "|------|-------------|--------|----------|\n" ++ txnRows l

/-- `PromptManager._format_bank_statement_markdown`. -/
def format_bank_statement_markdown (data : BankStatementSchema) : String :=
  "# Bank Statement\n\n" ++
    "**Account Holder:** " ++ pyOrNA data.account_holder ++ "\n" ++
    "**Account Number:** " ++ pyOrNA data.account_number ++ "\n" ++
    "**Bank:** " ++ pyOrNA data.bank_name ++ "\n" ++
    "**Period:** " ++ pyOrNA data.statement_period ++ "\n\n" ++
    "**Opening Balance:** " ++ money data.opening_balance ++ "\n" ++
    "**Closing Balance:** " ++ money data.closing_balance ++ "\n\n" ++
    bankTxnSection data.transactions

/-- The `if data.incident_description:` tail of the insurance template. -/
def insuranceDescSection (o : Option (List Char)) : String :=
  match o with
  | some s =>
    if s.isEmpty then ""
    else "**Incident Description:**\n" ++ s.asString ++ "\n\n"
  | none => ""

/-- `PromptManager._format_insurance_markdown`. -/
def format_insurance_markdown (data : InsuranceClaimSchema) : String :=
  "# Insurance Form\n\n" ++
    "**Policy Number:** " ++ pyOrNA data.policy_number ++ "\n" ++
    "**Claim Number:** " ++ pyOrNA data.claim_number ++ "\n" ++
    "**Insured Name:** " ++ pyOrNA data.insured_name ++ "\n" ++
    "**Incident Date:** " ++ pyOrNA data.incident_date ++ "\n" ++
    "**Claim Amount:** " ++ money data.claim_amount ++ "\n\n" ++
    insuranceDescSection data.incident_description

/-- The `if data.accident_description:` tail of the accident template. -/
def accidentDescSection (o : Option (List Char)) : String :=
  match o with
  | some s =>
    if s.isEmpty then ""
    else "**Description:**\n" ++ s.asString ++ "\n\n"
  | none => ""

/-- `PromptManager._format_accident_claim_markdown`. -/
def format_accident_claim_markdown (data : AccidentClaimSchema) : String :=
  "# Accident Claim\n\n" ++
    "**Claim Number:** " ++ pyOrNA data.claim_number ++ "\n" ++
    "**Claimant:** " ++ pyOrNA data.claimant_name ++ "\n" ++
    "**Accident Date:** " ++ pyOrNA data.accident_date ++ "\n" ++
    "**Location:** " ++ pyOrNA data.accident_location ++ "\n" ++
    "**Damage Amount:** " ++ money data.damage_amount ++ "\n\n" ++
    accidentDescSection data.accident_description

/-- `PromptManager._format_invoice_markdown`. -/
def format_invoice_markdown (data : InvoiceSchema) : String :=
  "# Invoice\n\n" ++
    "**Invoice Number:** " ++ pyOrNA data.invoice_number ++ "\n" ++
    "**Date:** " ++ pyOrNA data.invoice_date ++ "\n" ++
    "**Vendor:** " ++ pyOrNA data.vendor_name ++ "\n" ++
    "**Customer:** " ++ pyOrNA data.customer_name ++ "\n" ++
    "**Total Amount:** " ++ money data.total_amount ++ "\n\n"

/-- The `if data.parties:` line of the general template (`None` and `[]`
are both falsy). -/
def generalPartiesSection (o : Option (List (List Char))) : String :=
  match o with
  | some (p :: ps) =>
    "**Parties:** " ++ joinSepStr ", " ((p :: ps).map List.asString) ++ "\n"
  | _ => ""

/-- The `if data.amounts:` line of the general template. -/
def generalAmountsSection (o : Option (List Dec)) : String :=
  match o with
  | some (a :: as1) =>
    "**Amounts:** " ++
      joinSepStr ", " ((a :: as1).map (fun d => "$" ++ (fmt2 d).asString)) ++ "\n"
  | _ => ""

/-- `PromptManager._format_general_markdown`. -/
def format_general_markdown (data : GeneralDocumentSchema) : String :=
  "# Document\n\n" ++
    "**Title:** " ++ pyOrNA data.title ++ "\n" ++
    "**Date:** " ++ pyOrNA data.date ++ "\n\n" ++
    generalPartiesSection data.parties ++
    generalAmountsSection data.amounts

/-- The `document_type` attribute every schema class declares; the markdown
dispatch reads it off the record. -/
def recordDocumentType : ExtractionRecord → DocumentType
  | .bank b => b.document_type
  | .insurance i => i.document_type
  | .accident a => a.document_type
  | .invoice i => i.document_type
  | .general g => g.document_type

/-- `PromptManager._convert_to_markdown`: dispatch on the record's
`document_type` *value* to a fixed per-type template. Each template reads
attributes only its own schema class declares, so a template applied to a
record of a different class raises `AttributeError` at the first access;
that exception is embedded as `Except.error "AttributeError"`. -/
def convert_to_markdown (data : ExtractionRecord) : Except String String :=
  match recordDocumentType data with
  | .bank_statement =>
    match data with
    | .bank b => .ok (format_bank_statement_markdown b)
    | _ => .error "AttributeError"
  | .insurance_form =>
    match data with
    | .insurance i => .ok (format_insurance_markdown i)
    | _ => .error "AttributeError"
  | .accident_claim =>
    match data with
    | .accident a => .ok (format_accident_claim_markdown a)
    | _ => .error "AttributeError"
  | .invoice =>
    match data with
    | .invoice i => .ok (format_invoice_markdown i)
    | _ => .error "AttributeError"
  | _ =>
    match data with
    | .general g => .ok (format_general_markdown g)
    | _ => .error "AttributeError"

/-- Lowercase hexadecimal digit character. -/
def hexDigit (n : Nat) : Char :=
  if n < 10 then digitChar n else Char.ofNat (87 + n)

/-- Serialize one character of a JSON string: escape the quote, the
backslash and control characters, keep everything else literal. -/
def escChar (c : Char) : List Char :=
  if c == '"' then ['\\', '"']
  else if c == '\\' then ['\\', '\\']
  else if c.toNat < 32 then
    ['\\', 'u', '0', '0', hexDigit (c.toNat / 16), hexDigit (c.toNat % 16)]
  else [c]

/-- Serialize the body of a JSON string. -/
def escStr (s : List Char) : List Char :=
  s.foldr (fun c acc => escChar c ++ acc) []

/-- Serialize a JSON string with its quotes. -/
def printJStr (s : List Char) : List Char :=
  '"' :: (escStr s ++ ['"'])

/-- Serialize a decimal as a JSON number: integer, exponent or point form
depending on the exponent's sign. -/
def printNum (d : Dec) : List Char :=
  let sign : List Char := if d.man < 0 then ['-'] else []
  let ds := natToChars d.man.natAbs
  if 1 ≤ d.exp then sign ++ ds ++ 'e' :: natToChars d.exp.toNat
  else if d.exp = 0 then sign ++ ds
  else
    let k := (-d.exp).toNat
    if k < ds.length then
      sign ++ ds.take (ds.length - k) ++ '.' :: ds.drop (ds.length - k)
    else
      sign ++ '0' :: '.' :: (List.replicate (k - ds.length) '0' ++ ds)

/-- Serialize an optional string field (`null` when absent). -/
def printJStrOpt : Option (List Char) → List Char
  | some s => printJStr s
  | none => "null".data

/-- Serialize an optional float field. -/
def printJNumOpt : Option Dec → List Char
  | some d => printNum d
  | none => "null".data

/-- Serialize an optional transaction-category field. -/
def printJTxnTypeOpt : Option TransactionType → List Char
  | some t => printJStr (txnTypeValue t)
  | none => "null".data

/-- Join pre-serialized `key: value` members with commas. -/
def printMembers : List (List Char × List Char) → List Char
  | [] => []
  | [kv] => printJStr kv.1 ++ ':' :: kv.2
  | kv :: r => printJStr kv.1 ++ ':' :: kv.2 ++ ',' :: printMembers r

/-- Serialize an object from pre-serialized member values. -/
def printObjOf (items : List (List Char × List Char)) : List Char :=
  '{' :: (printMembers items ++ ['}'])

/-- Join pre-serialized array elements with commas. -/
def joinCommaChars : List (List Char) → List Char
  | [] => []
  | [x] => x
  | x :: r => x ++ ',' :: joinCommaChars r

/-- Serialize an array from pre-serialized elements. -/
def printArrOf (pvs : List (List Char)) : List Char :=
  '[' :: (joinCommaChars pvs ++ [']'])

/-- The serialized members of one transaction, in field order. -/
def txnItems (t : Transaction) : List (List Char × List Char) :=
  [("date".data, printJStrOpt t.date),
   ("description".data, printJStrOpt t.description),
   ("amount".data, printJNumOpt t.amount),
   ("balance".data, printJNumOpt t.balance),
   ("transaction_type".data, printJTxnTypeOpt t.transaction_type),
   ("reference".data, printJStrOpt t.reference)]

/-- Serialize one transaction. -/
def printTxn (t : Transaction) : List Char :=
  printObjOf (txnItems t)

/-- The serialized members of a bank-statement record, in field order. -/
def bankItems (b : BankStatementSchema) : List (List Char × List Char) :=
  [("document_type".data, printJStr (docTypeValue b.document_type)),
   ("account_holder".data, printJStrOpt b.account_holder),
   ("account_number".data, printJStrOpt b.account_number),
   ("bank_name".data, printJStrOpt b.bank_name),
   ("statement_period".data, printJStrOpt b.statement_period),
   ("opening_balance".data, printJNumOpt b.opening_balance),
   ("closing_balance".data, printJNumOpt b.closing_balance),
   ("total_credits".data, printJNumOpt b.total_credits),
   ("total_debits".data, printJNumOpt b.total_debits),
   ("transactions".data, printArrOf (b.transactions.map printTxn)),
   ("address".data, printJStrOpt b.address),
   ("phone".data, printJStrOpt b.phone),
   ("email".data, printJStrOpt b.email)]

/-- `BankStatementSchema.model_dump_json`: the serialized record. The
`indent=2` whitespace of the source is omitted: JSON whitespace is
insignificant, and every property below reads the output through
`json.loads` or not at all. -/
def model_dump_json_bank (b : BankStatementSchema) : List Char :=
  printObjOf (bankItems b)

/-- `InsuranceClaimSchema.model_dump_json` (compact, as above). -/
def model_dump_json_insurance (i : InsuranceClaimSchema) : List Char :=
  printObjOf
    [("document_type".data, printJStr (docTypeValue i.document_type)),
     ("policy_number".data, printJStrOpt i.policy_number),
     ("claim_number".data, printJStrOpt i.claim_number),
     ("insured_name".data, printJStrOpt i.insured_name),
     ("incident_date".data, printJStrOpt i.incident_date),
     ("incident_description".data, printJStrOpt i.incident_description),
     ("claim_amount".data, printJNumOpt i.claim_amount),
     ("policy_type".data, printJStrOpt i.policy_type),
     ("address".data, printJStrOpt i.address),
     ("phone".data, printJStrOpt i.phone),
     ("email".data, printJStrOpt i.email)]

/-- Serialize an optional string list (`witnesses`, `items`, ...). -/
def printJStrListOpt : Option (List (List Char)) → List Char
  | some l => printArrOf (l.map printJStr)
  | none => "null".data

/-- `AccidentClaimSchema.model_dump_json` (compact, as above). -/
def model_dump_json_accident (a : AccidentClaimSchema) : List Char :=
  printObjOf
    [("document_type".data, printJStr (docTypeValue a.document_type)),
     ("claim_number".data, printJStrOpt a.claim_number),
     ("claimant_name".data, printJStrOpt a.claimant_name),
     ("accident_date".data, printJStrOpt a.accident_date),
     ("accident_location".data, printJStrOpt a.accident_location),
     ("accident_description".data, printJStrOpt a.accident_description),
     ("vehicle_details".data, printJStrOpt a.vehicle_details),
     ("damage_amount".data, printJNumOpt a.damage_amount),
     ("police_report".data, printJStrOpt a.police_report),
     ("witnesses".data, printJStrListOpt a.witnesses),
     ("address".data, printJStrOpt a.address),
     ("phone".data, printJStrOpt a.phone),
     ("email".data, printJStrOpt a.email)]

/-- `InvoiceSchema.model_dump_json` (compact, as above). -/
def model_dump_json_invoice (i : InvoiceSchema) : List Char :=
  printObjOf
    [("document_type".data, printJStr (docTypeValue i.document_type)),
     ("invoice_number".data, printJStrOpt i.invoice_number),
     ("invoice_date".data, printJStrOpt i.invoice_date),
     ("due_date".data, printJStrOpt i.due_date),
     ("vendor_name".data, printJStrOpt i.vendor_name),
     ("customer_name".data, printJStrOpt i.customer_name),
     ("total_amount".data, printJNumOpt i.total_amount),
     ("tax_amount".data, printJNumOpt i.tax_amount),
     ("subtotal".data, printJNumOpt i.subtotal),
     ("items".data, printJStrListOpt i.items),
     ("vendor_address".data, printJStrOpt i.vendor_address),
     ("customer_address".data, printJStrOpt i.customer_address)]

mutual

/-- Serialize an arbitrary JSON value (needed for the free-form
`key_information` map of the general schema). -/
def printJson : Json → List Char
  | .null => "null".data
  | .bool true => "true".data
  | .bool false => "false".data
  | .num d => printNum d
  | .str s => printJStr s
  | .arr l => '[' :: (printJsonList l ++ [']'])
  | .obj kvs => '{' :: (printJsonFields kvs ++ ['}'])

/-- Serialize array elements with comma separators. -/
def printJsonList : List Json → List Char
  | [] => []
  | [x] => printJson x
  | x :: r => printJson x ++ ',' :: printJsonList r

/-- Serialize object members with comma separators. -/
def printJsonFields : List (List Char × Json) → List Char
  | [] => []
  | [kv] => printJStr kv.1 ++ ':' :: printJson kv.2
  | kv :: r => printJStr kv.1 ++ ':' :: printJson kv.2 ++ ',' :: printJsonFields r

end

/-- Serialize an optional float list (`amounts`). -/
def printJNumListOpt : Option (List Dec) → List Char
  | some l => printArrOf (l.map printNum)
  | none => "null".data

/-- Serialize the optional free-form `key_information` map. -/
def printJDictOpt : Option (List (List Char × Json)) → List Char
  | some kvs => '{' :: (printJsonFields kvs ++ ['}'])
  | none => "null".data

/-- `GeneralDocumentSchema.model_dump_json` (compact, as above). -/
def model_dump_json_general (g : GeneralDocumentSchema) : List Char :=
  printObjOf
    [("document_type".data, printJStr (docTypeValue g.document_type)),
     ("title".data, printJStrOpt g.title),
     ("date".data, printJStrOpt g.date),
     ("parties".data, printJStrListOpt g.parties),
     ("addresses".data, printJStrListOpt g.addresses),
     ("phone_numbers".data, printJStrListOpt g.phone_numbers),
     ("email_addresses".data, printJStrListOpt g.email_addresses),
     ("amounts".data, printJNumListOpt g.amounts),
     ("dates".data, printJStrListOpt g.dates),
     ("key_information".data, printJDictOpt g.key_information)]

/-- `data.model_dump_json(indent=2)` over the record union. -/
def model_dump_json : ExtractionRecord → List Char
  | .bank b => model_dump_json_bank b
  | .insurance i => model_dump_json_insurance i
  | .accident a => model_dump_json_accident a
  | .invoice i => model_dump_json_invoice i
  | .general g => model_dump_json_general g

/-- Python `str(data)` on a Pydantic record, as the `else` branch of
`format_output` uses it. Its exact text is exercised by no claim and no
test; it is modelled as a deterministic rendering of the record (the JSON
dump stands in), which is all any property below relies on. -/
def pyStrOfRecord (r : ExtractionRecord) : String :=
  (model_dump_json r).asString

/-- `PromptManager.format_output`: raw text passes through unchanged; a
structured record is serialized as JSON, converted to markdown (which can
raise, see `convert_to_markdown`), or rendered by `str(...)` for any other
format. -/
def format_output (data : ExtractionOutcome) (output_format : String) :
    Except String String :=
  match data with
  | .raw s => .ok s
  | .structured r =>
    if output_format == "json" then .ok (model_dump_json r).asString
    else if output_format == "markdown" then convert_to_markdown r
    else .ok (pyStrOfRecord r)

/-- JSON value of an optional string field after serialization. -/
def jStrOptVal : Option (List Char) → Json
  | some s => .str s
  | none => .null

/-- JSON value of an optional float field after serialization. -/
def jNumOptVal : Option Dec → Json
  | some d => .num d
  | none => .null

/-- JSON value of an optional transaction-category field. -/
def jTxnTypeOptVal : Option TransactionType → Json
  | some t => .str (txnTypeValue t)
  | none => .null

/-- The JSON tree a serialized transaction denotes. -/
def txnToJson (t : Transaction) : Json :=
  .obj [("date".data, jStrOptVal t.date),
        ("description".data, jStrOptVal t.description),
        ("amount".data, jNumOptVal t.amount),
        ("balance".data, jNumOptVal t.balance),
        ("transaction_type".data, jTxnTypeOptVal t.transaction_type),
        ("reference".data, jStrOptVal t.reference)]

/-- The JSON tree a serialized bank-statement record denotes: what
`json.loads` gives back on `model_dump_json`'s output. -/
def bankToJson (b : BankStatementSchema) : Json :=
  .obj [("document_type".data, .str (docTypeValue b.document_type)),
        ("account_holder".data, jStrOptVal b.account_holder),
        ("account_number".data, jStrOptVal b.account_number),
        ("bank_name".data, jStrOptVal b.bank_name),
        ("statement_period".data, jStrOptVal b.statement_period),
        ("opening_balance".data, jNumOptVal b.opening_balance),
        ("closing_balance".data, jNumOptVal b.closing_balance),
        ("total_credits".data, jNumOptVal b.total_credits),
        ("total_debits".data, jNumOptVal b.total_debits),
        ("transactions".data, .arr (b.transactions.map txnToJson)),
        ("address".data, jStrOptVal b.address),
        ("phone".data, jStrOptVal b.phone),
        ("email".data, jStrOptVal b.email)]

example :
    format_output
      (parse_structured_response "\x7b\"document_type\": \"invoice\"\x7d"
        .bank_statement) "markdown"
    = .error "AttributeError" := by rfl

example : money (some ⟨12345, -1⟩) = "$1234.50" := by rfl

example : money none = "$0.00" := by rfl

example :
    Json.parse (model_dump_json_bank
      ⟨.bank_statement, some "Jo e".data, none, none, none, some ⟨15, -1⟩,
        none, none, none,
        [⟨some "d".data, none, some ⟨3, 3⟩, none, some .credit, none⟩],
        none, none, none⟩)
    = some (bankToJson
      ⟨.bank_statement, some "Jo e".data, none, none, none, some ⟨15, -1⟩,
        none, none, none,
        [⟨some "d".data, none, some ⟨3, 3⟩, none, some .credit, none⟩],
        none, none, none⟩) := by rfl

/-- Substring occurrence test over character lists. -/
def containsSub (pat : List Char) : List Char → Bool
  | [] => pat.isEmpty
  | c :: r => pat.isPrefixOf (c :: r) || containsSub pat r

/-- A JSON object's key holds a string value. -/
def okStrKey (kvs : List (List Char × Json)) (k : List Char) : Bool :=
  match jGet kvs k with
  | some (.str _) => true
  | _ => false

/-- A JSON object's key holds a number value. -/
def okNumKey (kvs : List (List Char × Json)) (k : List Char) : Bool :=
  match jGet kvs k with
  | some (.num _) => true
  | _ => false

/-- One transaction object of a well-typed, fully populated bank-statement
payload: all six `Transaction` fields present, each with a value of the
field's declared type (`transaction_type` one of the five category
literals). -/
def wtTxn : Json → Bool
  | .obj kvs =>
    okStrKey kvs "date".data && okStrKey kvs "description".data &&
      okNumKey kvs "amount".data && okNumKey kvs "balance".data &&
      (match jGet kvs "transaction_type".data with
       | some (.str s) => (txnTypeFromValue s).isSome
       | _ => false) &&
      okStrKey kvs "reference".data
  | _ => false

/-- Every transaction of the list is well typed and fully populated. -/
def wtTxns : List Json → Bool
  | [] => true
  | j :: r => wtTxn j && wtTxns r

/-- A JSON object that matches `BankStatementSchema` with every optional
field populated: each declared field is present, non-null, and of the
field's declared type (strings for text fields, numbers for money fields, a
`DocumentType` literal for `document_type`, an array of well-typed
transaction objects for `transactions`). -/
def wtBank : Json → Bool
  | .obj kvs =>
    (match jGet kvs "document_type".data with
     | some (.str s) => (docTypeFromValue s).isSome
     | _ => false) &&
      okStrKey kvs "account_holder".data &&
      okStrKey kvs "account_number".data &&
      okStrKey kvs "bank_name".data &&
      okStrKey kvs "statement_period".data &&
      okNumKey kvs "opening_balance".data &&
      okNumKey kvs "closing_balance".data &&
      okNumKey kvs "total_credits".data &&
      okNumKey kvs "total_debits".data &&
      (match jGet kvs "transactions".data with
       | some (.arr l) => wtTxns l
       | _ => false) &&
      okStrKey kvs "address".data &&
      okStrKey kvs "phone".data &&
      okStrKey kvs "email".data
  | _ => false

/-- Both objects hold equal string values at the key. -/
def strKeyMatch (a b : List (List Char × Json)) (k : List Char) : Bool :=
  match jGet a k, jGet b k with
  | some (.str x), some (.str y) => x == y
  | _, _ => false

/-- Both objects hold numerically equal number values at the key (numeric
equality, since Python compares `100` and `100.0` equal). -/
def numKeyMatch (a b : List (List Char × Json)) (k : List Char) : Bool :=
  match jGet a k, jGet b k with
  | some (.num x), some (.num y) => x.sameVal y
  | _, _ => false

/-- Two transaction objects agree on every `Transaction` field. -/
def txnMatch : Json → Json → Bool
  | .obj a, .obj b =>
    strKeyMatch a b "date".data && strKeyMatch a b "description".data &&
      numKeyMatch a b "amount".data && numKeyMatch a b "balance".data &&
      strKeyMatch a b "transaction_type".data &&
      strKeyMatch a b "reference".data
  | _, _ => false

/-- Pointwise field agreement of two transaction lists. -/
def txnsMatch : List Json → List Json → Bool
  | [], [] => true
  | x :: xs, y :: ys => txnMatch x y && txnsMatch xs ys
  | _, _ => false

/-- The two JSON objects carry the same value at every
`BankStatementSchema` field: equal strings at the text fields, numerically
equal numbers at the money fields, and pointwise agreement of the
transaction lists. -/
def bankFieldsMatch : Json → Json → Bool
  | .obj a, .obj b =>
    strKeyMatch a b "document_type".data &&
      strKeyMatch a b "account_holder".data &&
      strKeyMatch a b "account_number".data &&
      strKeyMatch a b "bank_name".data &&
      strKeyMatch a b "statement_period".data &&
      numKeyMatch a b "opening_balance".data &&
      numKeyMatch a b "closing_balance".data &&
      numKeyMatch a b "total_credits".data &&
      numKeyMatch a b "total_debits".data &&
      (match jGet a "transactions".data, jGet b "transactions".data with
       | some (.arr x), some (.arr y) => txnsMatch x y
       | _, _ => false) &&
      strKeyMatch a b "address".data &&
      strKeyMatch a b "phone".data &&
      strKeyMatch a b "email".data
  | _, _ => false

/-- A printed fragment `pv` denotes the JSON value `jv`: the parser, given
`pv` followed by a separator the serializer can emit after a value, returns
`jv` and consumes exactly `pv`. Fuel `pv.length + 1` always suffices, since
the parser spends fuel only on consumed characters. -/
def ParsesTo (pv : List Char) (jv : Json) : Prop :=
  ∀ c rest, ((c == ',') || (c == '}') || (c == ']')) = true →
    pVal (pv.length + 1) (pv ++ c :: rest) = some (jv, c :: rest)

/-- C1: for every string `s` and every `DocumentType` `t`,
`parse_structured_response(s, t)` returns a value (a structured record or
the raw fallback, never an exception — the embedding is a total function
into the `ExtractionOutcome` union); and whenever the cleaned text fails
`json.loads` or the parsed object fails schema validation, the result is
the raw fallback carrying the original input `s` unchanged, not the
cleaned text. -/
theorem claim_C1 (s : String) (t : DocumentType) :
    ((∃ rec, parse_structured_response s t = .structured rec) ∨
      parse_structured_response s t = .raw s) ∧
    (Json.parse (cleanResponseText s.data) = none →
      parse_structured_response s t = .raw s) ∧
    (∀ j, Json.parse (cleanResponseText s.data) = some j →
      validateFor t j = none → parse_structured_response s t = .raw s) := by
  refine ⟨?_, ?_, ?_⟩
  · cases hp : Json.parse (cleanResponseText s.data) with
    | none =>
      exact Or.inr (by
        simp [parse_structured_response, parse_structured_response_cfg, hp])
    | some j =>
      cases hv : validateFor t j with
      | none =>
        exact Or.inr (by
          simp [parse_structured_response, parse_structured_response_cfg, hp, hv])
      | some rec =>
        exact Or.inl ⟨rec, by
          simp [parse_structured_response, parse_structured_response_cfg, hp, hv]⟩
  · intro hp
    simp [parse_structured_response, parse_structured_response_cfg, hp]
  · intro j hp hv
    simp [parse_structured_response, parse_structured_response_cfg, hp, hv]

/-- Witness for C1 at the spec's own example `"{ broken json"`: the cleaned
text is not JSON and the parser hands back the original string. -/
theorem claim_C1_witness :
    Json.parse (cleanResponseText "\x7b broken json".data) = none ∧
    parse_structured_response "\x7b broken json" .bank_statement
      = .raw "\x7b broken json" :=
  ⟨by rfl, (claim_C1 "\x7b broken json" .bank_statement).2.1 (by rfl)⟩

/-- C2 is false on the code: `document_type` is typed as the whole
`DocumentType` enum (with a per-schema default), not as a fixed literal, so
validating `{"document_type": "invoice"}` against the bank-statement schema
is *not* rejected: `parse_structured_response` returns a structured
bank-statement record tagged `invoice`, the opposite of the claimed
mismatch rejection. -/
theorem claim_C2_counterexample :
    parse_structured_response "\x7b\"document_type\": \"invoice\"\x7d"
      .bank_statement
    = .structured (.bank ⟨.invoice, none, none, none, none, none, none,
        none, none, [], none, none, none⟩) := by rfl

/-- C2 amended: each schema declares `document_type` with a *default* equal
to its own enum value (an absent key yields the schema's own type), but the
field accepts any member of the enum, so a `document_type` literal of a
different type validates and is stored as given rather than being rejected
as a mismatch. -/
theorem claim_C2_amended :
    vBank (.obj []) = some ⟨.bank_statement, none, none, none, none, none,
      none, none, none, [], none, none, none⟩ ∧
    vInsurance (.obj []) = some ⟨.insurance_form, none, none, none, none,
      none, none, none, none, none, none⟩ ∧
    vAccident (.obj []) = some ⟨.accident_claim, none, none, none, none,
      none, none, none, none, some [], none, none, none⟩ ∧
    vInvoice (.obj []) = some ⟨.invoice, none, none, none, none, none,
      none, none, none, some [], none, none⟩ ∧
    vGeneral (.obj []) = some ⟨.other, none, none, some [], some [],
      some [], some [], some [], some [], some []⟩ ∧
    ∀ d : DocumentType,
      vBank (.obj [("document_type".data, .str (docTypeValue d))])
        = some ⟨d, none, none, none, none, none, none, none, none, [],
            none, none, none⟩ := by
  refine ⟨by rfl, by rfl, by rfl, by rfl, by rfl, ?_⟩
  intro d
  cases d <;> rfl

/-- C3: the classifier's five documented examples hold, and the classifier
is total with unrecognized input degrading to `Other`: whenever the
normalised text matches no entry of the lookup table, the result is
`DocumentType.other` (and the function returns a `DocumentType` for every
string by construction). -/
theorem claim_C3 :
    classify_document_type "bank_statement" = .bank_statement ∧
    classify_document_type "INSURANCE FORM" = .insurance_form ∧
    classify_document_type "accident claim" = .accident_claim ∧
    classify_document_type "unknown document" = .other ∧
    classify_document_type "" = .other ∧
    ∀ s : String,
      classifyTable.find? (fun p => p.1 == normalizeClassification s) = none →
      classify_document_type s = .other := by
  refine ⟨by rfl, by rfl, by rfl, by rfl, by rfl, ?_⟩
  intro s h
  unfold classify_document_type
  rw [h]

/-- Witness for C3's degradation clause at pure whitespace and unrelated
text. -/
theorem claim_C3_witness :
    classify_document_type "   " = .other ∧
    classify_document_type "xyz123" = .other :=
  ⟨claim_C3.2.2.2.2.2 "   " (by rfl), claim_C3.2.2.2.2.2 "xyz123" (by rfl)⟩

/-- C4 is false on the code: the classifier uses an exact dict lookup, not
substring matching. `"my bank statement"` normalises to itself and contains
the known phrase `"bank statement"` as a substring, yet classifies as
`Other`, not `BankStatement`. -/
theorem claim_C4_counterexample :
    containsSub "bank statement".data
      (normalizeClassification "my bank statement") = true ∧
    classify_document_type "my bank statement" = .other ∧
    classify_document_type "my bank statement" ≠ .bank_statement :=
  ⟨by rfl, by rfl, by decide⟩

/-- C4 amended: the classifier matches by *exact equality* of the
normalised (stripped, lowercased) text against its fixed lookup table
(which also carries the underscore variants `bank_statement`,
`insurance_form`, `accident_claim`): any string whose normalised form
equals a table key classifies as that key's `DocumentType`; substring
containment does not suffice (see the counterexample). -/
theorem claim_C4_amended (s : String) (k : List Char) (t : DocumentType)
    (hmem : (k, t) ∈ classifyTable)
    (hnorm : normalizeClassification s = k) :
    classify_document_type s = t := by
  unfold classify_document_type
  rw [hnorm]
  fin_cases hmem <;> rfl

/-- Witness for C4's amended claim: `" Bank Statement "` normalises to the
table key `"bank statement"` and classifies accordingly. -/
theorem claim_C4_witness :
    classify_document_type " Bank Statement " = .bank_statement :=
  claim_C4_amended " Bank Statement " "bank statement".data .bank_statement
    (by simp [classifyTable]) (by rfl)

/-- C7: parsing `{"document_type":"bank_statement"}` for the bank-statement
type yields a structured record with every optional field `None` and an
empty transactions list; and missing keys alone never force the raw
fallback: the empty object `{}` validates against every document type's
schema. -/
theorem claim_C7 :
    parse_structured_response "\x7b\"document_type\":\"bank_statement\"\x7d"
      .bank_statement
      = .structured (.bank ⟨.bank_statement, none, none, none, none, none,
          none, none, none, [], none, none, none⟩) ∧
    ∀ t : DocumentType, ∃ rec,
      parse_structured_response "\x7b\x7d" t = .structured rec := by
  refine ⟨by rfl, ?_⟩
  intro t
  cases t <;> exact ⟨_, by rfl⟩

/-- C8: the schema registry is a total pure function on the closed
seven-value enum; each value maps to exactly one schema class (`receipt`
and `contract` fall to the dict-lookup default, `GeneralDocumentSchema`,
like `other`). -/
theorem claim_C8 :
    get_schema_for_document_type .bank_statement = .bankStatementSchema ∧
    get_schema_for_document_type .insurance_form = .insuranceClaimSchema ∧
    get_schema_for_document_type .accident_claim = .accidentClaimSchema ∧
    get_schema_for_document_type .invoice = .invoiceSchema ∧
    get_schema_for_document_type .receipt = .generalDocumentSchema ∧
    get_schema_for_document_type .contract = .generalDocumentSchema ∧
    get_schema_for_document_type .other = .generalDocumentSchema :=
  ⟨rfl, rfl, rfl, rfl, rfl, rfl, rfl⟩

/-- C10 fails on the code: the parser accepts a record whose
`document_type` differs from the requested type (see C2), and
`_convert_to_markdown` then dispatches on that mismatched value into a
template that reads attributes the record's class does not have, raising
`AttributeError`. At `s = '{"document_type": "invoice"}'`,
`t = BankStatement`, `f = "markdown"` the pipeline throws instead of
returning a string. -/
theorem claim_C10_code_bug :
    parse_structured_response "\x7b\"document_type\": \"invoice\"\x7d"
      .bank_statement
      = .structured (.bank ⟨.invoice, none, none, none, none, none, none,
          none, none, [], none, none, none⟩) ∧
    format_output
      (parse_structured_response "\x7b\"document_type\": \"invoice\"\x7d"
        .bank_statement) "markdown"
      = .error "AttributeError" :=
  ⟨by rfl, by rfl⟩

theorem isPrefixOf_append_self (p b : List Char) :
    p.isPrefixOf (p ++ b) = true := by
  induction p with
  | nil => simp [List.isPrefixOf]
  | cons c r ih => simp [List.isPrefixOf, ih]

theorem containsSub_head (pat b : List Char) :
    containsSub pat (pat ++ b) = true := by
  cases pat with
  | nil =>
    cases b with
    | nil => rfl
    | cons c r => simp [containsSub, List.isPrefixOf]
  | cons c r => simp [containsSub, isPrefixOf_append_self]

theorem containsSub_cons_of (pat : List Char) (c : Char) (r : List Char)
    (h : containsSub pat r = true) : containsSub pat (c :: r) = true := by
  simp [containsSub, h]

theorem containsSub_append_left (pat a b : List Char)
    (h : containsSub pat b = true) : containsSub pat (a ++ b) = true := by
  induction a with
  | nil => exact h
  | cons c r ih => exact containsSub_cons_of _ _ _ ih

/-- C9: rendering a structured bank-statement record with
`opening_balance = 1234.5` as markdown produces a string containing
`"$1234.50"`, whatever the other fields hold; with `opening_balance = None`
the `... or 0` idiom renders the documented `"$0.00"` placeholder. -/
theorem claim_C9 :
    (∀ b : BankStatementSchema, b.document_type = .bank_statement →
      b.opening_balance = some ⟨12345, -1⟩ →
      format_output (.structured (.bank b)) "markdown"
        = .ok (format_bank_statement_markdown b) ∧
      containsSub "$1234.50".data
        (format_bank_statement_markdown b).data = true) ∧
    (∀ b : BankStatementSchema, b.document_type = .bank_statement →
      b.opening_balance = none →
      format_output (.structured (.bank b)) "markdown"
        = .ok (format_bank_statement_markdown b) ∧
      containsSub "$0.00".data
        (format_bank_statement_markdown b).data = true) := by
  constructor
  · intro b h1 h2
    constructor
    · simp [format_output, convert_to_markdown, recordDocumentType, h1]
    · have hm : money (some ⟨12345, -1⟩) = "$1234.50" := by rfl
      unfold format_bank_statement_markdown
      rw [h2, hm]
      simp only [String.data_append, List.append_assoc]
      repeat first
        | exact containsSub_head _ _
        | apply containsSub_append_left
  · intro b h1 h2
    constructor
    · simp [format_output, convert_to_markdown, recordDocumentType, h1]
    · have hm : money none = "$0.00" := by rfl
      unfold format_bank_statement_markdown
      rw [h2, hm]
      simp only [String.data_append, List.append_assoc]
      repeat first
        | exact containsSub_head _ _
        | apply containsSub_append_left

/-- Witness for C9 at concrete records (all other fields absent). -/
theorem claim_C9_witness :
    (format_output (.structured (.bank ⟨.bank_statement, none, none, none,
        none, some ⟨12345, -1⟩, none, none, none, [], none, none, none⟩))
        "markdown"
      = .ok (format_bank_statement_markdown ⟨.bank_statement, none, none,
          none, none, some ⟨12345, -1⟩, none, none, none, [], none, none,
          none⟩) ∧
     containsSub "$1234.50".data
       (format_bank_statement_markdown ⟨.bank_statement, none, none, none,
         none, some ⟨12345, -1⟩, none, none, none, [], none, none,
         none⟩).data = true) ∧
    (format_output (.structured (.bank ⟨.bank_statement, none, none, none,
        none, none, none, none, none, [], none, none, none⟩)) "markdown"
      = .ok (format_bank_statement_markdown ⟨.bank_statement, none, none,
          none, none, none, none, none, none, [], none, none, none⟩) ∧
     containsSub "$0.00".data
       (format_bank_statement_markdown ⟨.bank_statement, none, none, none,
         none, none, none, none, none, [], none, none, none⟩).data
       = true) :=
  ⟨claim_C9.1 _ rfl rfl, claim_C9.2 _ rfl rfl⟩

theorem dropWhile_dropWhile (p : Char → Bool) (l : List Char) :
    List.dropWhile p (List.dropWhile p l) = List.dropWhile p l := by
  induction l with
  | nil => rfl
  | cons c r ih =>
    by_cases h : p c
    · simp [List.dropWhile_cons, h, ih]
    · simp [List.dropWhile_cons, h]

theorem head_dropWhile_false (p : Char → Bool) (l : List Char) (c : Char)
    (r : List Char) (h : List.dropWhile p l = c :: r) : p c = false := by
  induction l with
  | nil => simp at h
  | cons a t ih =>
    by_cases ha : p a
    · rw [List.dropWhile_cons, if_pos ha] at h
      exact ih h
    · rw [List.dropWhile_cons, if_neg ha] at h
      cases h
      simp [ha]

theorem dropWhile_append_of_all (p : Char → Bool) (a b : List Char)
    (h : ∀ c ∈ a, p c = true) :
    List.dropWhile p (a ++ b) = List.dropWhile p b := by
  induction a with
  | nil => rfl
  | cons c r ih =>
    have hc : p c = true := h c (by simp)
    simp only [List.cons_append, List.dropWhile_cons, hc, if_pos]
    exact ih (fun x hx => h x (by simp [hx]))

theorem dropWhile_eq_nil_of_all (p : Char → Bool) (a : List Char)
    (h : ∀ c ∈ a, p c = true) : List.dropWhile p a = [] := by
  have := dropWhile_append_of_all p a [] h
  simpa using this

theorem trimLeft_eq_self_of_head (p : Char → Bool) (c : Char) (r : List Char)
    (h : p c = false) : trimLeft p (c :: r) = c :: r := by
  simp [trimLeft, List.dropWhile_cons, h]

theorem trimRight_eq_self_of_rev_head (p : Char → Bool) (l : List Char)
    (c : Char) (r : List Char) (hrev : l.reverse = c :: r)
    (h : p c = false) : trimRight p l = l := by
  unfold trimRight
  rw [hrev, List.dropWhile_cons, if_neg (by simp [h]), ← hrev,
    List.reverse_reverse]

theorem trimRight_append_of_all (p : Char → Bool) (a b : List Char)
    (h : ∀ c ∈ b, p c = true) : trimRight p (a ++ b) = trimRight p a := by
  unfold trimRight
  rw [List.reverse_append,
    dropWhile_append_of_all p b.reverse a.reverse (by simpa using h)]

theorem trimRight_trimRight (p : Char → Bool) (l : List Char) :
    trimRight p (trimRight p l) = trimRight p l := by
  unfold trimRight
  rw [List.reverse_reverse, dropWhile_dropWhile]

theorem exists_trimRight_decomp (p : Char → Bool) (l : List Char) :
    ∃ w, (∀ c ∈ w, p c = true) ∧ l = trimRight p l ++ w := by
  refine ⟨(l.reverse.takeWhile p).reverse, ?_, ?_⟩
  · intro c hc
    have h2 : c ∈ l.reverse.takeWhile p := by simpa using hc
    exact List.mem_takeWhile_imp h2
  · unfold trimRight
    have hsplit : l.reverse.takeWhile p ++ l.reverse.dropWhile p = l.reverse :=
      List.takeWhile_append_dropWhile p l.reverse
    calc l = l.reverse.reverse := (List.reverse_reverse l).symm
    _ = (l.reverse.takeWhile p ++ l.reverse.dropWhile p).reverse := by
        rw [hsplit]
    _ = (l.reverse.dropWhile p).reverse ++ (l.reverse.takeWhile p).reverse := by
        rw [List.reverse_append]

theorem trimRight_last_false (p : Char → Bool) (l x : List Char) (c : Char)
    (h : trimRight p l = x ++ [c]) : p c = false := by
  have hrev : List.dropWhile p l.reverse = c :: x.reverse := by
    have : (trimRight p l).reverse = List.dropWhile p l.reverse := by
      unfold trimRight
      rw [List.reverse_reverse]
    rw [← this, h, List.reverse_append]
    rfl
  exact head_dropWhile_false p l.reverse c x.reverse hrev

theorem trimLeft_of_trimRight_head (p : Char → Bool) (l : List Char) :
    trimLeft p (trimRight p (trimLeft p l)) = trimRight p (trimLeft p l) := by
  cases htr : trimRight p (trimLeft p l) with
  | nil => rfl
  | cons c r =>
    obtain ⟨w, hw, hdecomp⟩ := exists_trimRight_decomp p (trimLeft p l)
    rw [htr] at hdecomp
    have hdw : List.dropWhile p l = (c :: r) ++ w := by
      simpa [trimLeft] using hdecomp
    have hc : p c = false := head_dropWhile_false p l c (r ++ w) (by simpa using hdw)
    exact trimLeft_eq_self_of_head p c r hc

theorem pyStrip_idem (l : List Char) : pyStrip (pyStrip l) = pyStrip l := by
  unfold pyStrip
  rw [trimLeft_of_trimRight_head, trimRight_trimRight]

theorem pyStrip_wrap (wsl x wsr : List Char)
    (hl : ∀ c ∈ wsl, pyWsChar c = true) (hr : ∀ c ∈ wsr, pyWsChar c = true) :
    pyStrip (wsl ++ (x ++ wsr)) = pyStrip x := by
  unfold pyStrip
  rw [show trimLeft pyWsChar (wsl ++ (x ++ wsr))
      = trimLeft pyWsChar (x ++ wsr) from dropWhile_append_of_all _ _ _ hl]
  cases hx : trimLeft pyWsChar x with
  | nil =>
    have hxall : ∀ c ∈ x, pyWsChar c = true := by
      have := List.dropWhile_eq_nil_iff.mp hx
      simpa using this
    rw [show trimLeft pyWsChar (x ++ wsr) = trimLeft pyWsChar wsr from
      dropWhile_append_of_all _ _ _ hxall]
    rw [show trimLeft pyWsChar wsr = [] from dropWhile_eq_nil_of_all _ _ hr]
  | cons c r =>
    have : trimLeft pyWsChar (x ++ wsr) = (c :: r) ++ wsr := by
      unfold trimLeft at hx ⊢
      rw [List.dropWhile_append, hx]
      simp
    rw [this, trimRight_append_of_all _ _ _ hr]

theorem pStr_suffix : ∀ cs s rest, pStr cs = some (s, rest) → rest <:+ cs := by
  intro cs
  induction cs using pStr.induct
  all_goals intro s rest h
  all_goals simp only [pStr] at h
  all_goals repeat
    first
      | split at h
      | (obtain ⟨-, h⟩ := h)
  all_goals try simp only [Option.some.injEq, Prod.mk.injEq] at h
  all_goals try (obtain ⟨h1, h2⟩ := h; subst h2)
  all_goals try simp_all
  all_goals try (refine List.IsSuffix.trans ?_ ⟨[_, _, _, _, _, _], rfl⟩; assumption)
  all_goals try (refine List.IsSuffix.trans ?_ ⟨[_, _], rfl⟩; assumption)
  all_goals try (refine List.IsSuffix.trans ?_ ⟨[_], rfl⟩; assumption)

theorem suffix_of_dropWhile_eq (q : Char → Bool) (x pre y : List Char)
    (h : x.dropWhile q = pre ++ y) : y <:+ x :=
  List.IsSuffix.trans ⟨pre, h.symm⟩ (List.dropWhile_suffix q)

theorem pNumExpDigits_suffix (neg : Bool) (ids fds : List Char) (esign : Int)
    (cs : List Char) (d : Dec) (rest : List Char)
    (h : pNumExpDigits neg ids fds esign cs = some (d, rest)) : rest <:+ cs := by
  unfold pNumExpDigits at h
  split at h
  · simp at h
  · simp only [Option.some.injEq, Prod.mk.injEq] at h
    obtain ⟨-, h2⟩ := h
    rw [← h2]
    exact List.dropWhile_suffix isDigitC

theorem pNumExpPart_suffix (neg : Bool) (ids fds cs : List Char) (d : Dec)
    (rest : List Char) (h : pNumExpPart neg ids fds cs = some (d, rest)) :
    rest <:+ cs := by
  cases cs with
  | nil =>
    simp only [pNumExpPart, Option.some.injEq, Prod.mk.injEq] at h
    rw [← h.2]
  | cons c r =>
    simp only [pNumExpPart] at h
    split at h
    · cases r with
      | nil => simp [pNumExpDigits] at h
      | cons c2 r2 =>
        dsimp only at h
        by_cases h1 : (c2 == '+') = true
        · rw [if_pos h1] at h
          exact (pNumExpDigits_suffix _ _ _ _ _ _ _ h).trans ⟨[c, c2], rfl⟩
        · rw [if_neg h1] at h
          by_cases h2 : (c2 == '-') = true
          · rw [if_pos h2] at h
            exact (pNumExpDigits_suffix _ _ _ _ _ _ _ h).trans ⟨[c, c2], rfl⟩
          · rw [if_neg h2] at h
            exact (pNumExpDigits_suffix _ _ _ _ _ _ _ h).trans ⟨[c], rfl⟩
    · simp only [Option.some.injEq, Prod.mk.injEq] at h
      rw [← h.2]

theorem pNumFracPart_suffix (neg : Bool) (ids cs : List Char) (d : Dec)
    (rest : List Char) (h : pNumFracPart neg ids cs = some (d, rest)) :
    rest <:+ cs := by
  cases cs with
  | nil =>
    simp only [pNumFracPart] at h
    exact pNumExpPart_suffix _ _ _ _ _ _ h
  | cons c r =>
    simp only [pNumFracPart] at h
    split at h
    · split at h
      · simp at h
      · exact ((pNumExpPart_suffix _ _ _ _ _ _ h).trans
          (List.dropWhile_suffix isDigitC)).trans ⟨[c], rfl⟩
    · exact pNumExpPart_suffix _ _ _ _ _ _ h

theorem pNumBody_suffix (neg : Bool) (cs : List Char) (d : Dec)
    (rest : List Char) (h : pNumBody neg cs = some (d, rest)) : rest <:+ cs := by
  unfold pNumBody at h
  split at h
  · simp at h
  · split at h
    · simp at h
    · exact (pNumFracPart_suffix _ _ _ _ _ h).trans (List.dropWhile_suffix isDigitC)

theorem pNum_suffix (cs : List Char) (d : Dec) (rest : List Char)
    (h : pNum cs = some (d, rest)) : rest <:+ cs := by
  cases cs with
  | nil => exact pNumBody_suffix _ _ _ _ h
  | cons c r =>
    simp only [pNum] at h
    split at h
    · exact (pNumBody_suffix _ _ _ _ h).trans ⟨[c], rfl⟩
    · exact pNumBody_suffix _ _ _ _ h

theorem parser_suffix : ∀ f : Nat,
    (∀ cs v rest, pVal f cs = some (v, rest) → rest <:+ cs) ∧
    (∀ cs kvs rest, pMembers f cs = some (kvs, rest) → rest <:+ cs) ∧
    (∀ cs vs rest, pElems f cs = some (vs, rest) → rest <:+ cs) := by
  intro f
  induction f with
  | zero =>
    refine ⟨?_, ?_, ?_⟩ <;> intro cs a rest h <;>
      simp [pVal, pMembers, pElems] at h
  | succ f ih =>
    obtain ⟨ihV, ihM, ihE⟩ := ih
    refine ⟨?_, ?_, ?_⟩
    · intro cs v rest h
      rw [pVal] at h
      repeat' (first
        | split at h
        | (obtain ⟨-, h⟩ := h))
      all_goals try simp at h
      all_goals try (obtain ⟨h1, h2⟩ := h; subst h2)
      all_goals try (exact suffix_of_dropWhile_eq jsonWsChar _ [_, _, _, _, _] _ (by assumption))
      all_goals try (exact suffix_of_dropWhile_eq jsonWsChar _ [_, _, _, _] _ (by assumption))
      all_goals try (exact ((pStr_suffix _ _ _ (by assumption)).trans
        (suffix_of_dropWhile_eq jsonWsChar _ [_] _ (by assumption))))
      all_goals try (exact ((suffix_of_dropWhile_eq jsonWsChar _ [_] _ (by assumption)).trans
        (suffix_of_dropWhile_eq jsonWsChar _ [_] _ (by assumption))))
      all_goals try (exact ((ihM _ _ _ (by assumption)).trans
        (suffix_of_dropWhile_eq jsonWsChar _ [_] _ (by assumption))))
      all_goals try (exact ((ihE _ _ _ (by assumption)).trans
        (suffix_of_dropWhile_eq jsonWsChar _ [_] _ (by assumption))))
      all_goals try (exact ((pNum_suffix _ _ _ (by assumption)).trans
        (suffix_of_dropWhile_eq jsonWsChar _ [] _ (by assumption))))
    · intro cs kvs rest h
      rw [pMembers] at h
      repeat' (first
        | split at h
        | (obtain ⟨-, h⟩ := h))
      all_goals try simp at h
      all_goals try (obtain ⟨h1, h2⟩ := h; subst h2)
      all_goals try (exact (((((ihM _ _ _ (by assumption)).trans
        (suffix_of_dropWhile_eq jsonWsChar _ [_] _ (by assumption))).trans
        (ihV _ _ _ (by assumption))).trans
        ((suffix_of_dropWhile_eq jsonWsChar _ [_] _ (by assumption)).trans
        (pStr_suffix _ _ _ (by assumption)))).trans
        (suffix_of_dropWhile_eq jsonWsChar _ [_] _ (by assumption))))
      all_goals try (exact ((((suffix_of_dropWhile_eq jsonWsChar _ [_] _ (by assumption)).trans
        (ihV _ _ _ (by assumption))).trans
        ((suffix_of_dropWhile_eq jsonWsChar _ [_] _ (by assumption)).trans
        (pStr_suffix _ _ _ (by assumption)))).trans
        (suffix_of_dropWhile_eq jsonWsChar _ [_] _ (by assumption))))
    · intro cs vs rest h
      rw [pElems] at h
      repeat' (first
        | split at h
        | (obtain ⟨-, h⟩ := h))
      all_goals try simp at h
      all_goals try (obtain ⟨h1, h2⟩ := h; subst h2)
      all_goals try (exact (((ihE _ _ _ (by assumption)).trans
        (suffix_of_dropWhile_eq jsonWsChar _ [_] _ (by assumption))).trans
        (ihV _ _ _ (by assumption))))
      all_goals try (exact ((suffix_of_dropWhile_eq jsonWsChar _ [_] _ (by assumption)).trans
        (ihV _ _ _ (by assumption))))

theorem append_closes (cs mid rest : List Char) (h1 : mid <:+ cs)
    (h2 : ∃ pre, mid = pre ++ '}' :: rest) :
    ∃ pre, cs = pre ++ '}' :: rest := by
  obtain ⟨x, hx⟩ := h1
  obtain ⟨p, hp⟩ := h2
  exact ⟨x ++ p, by rw [← hx, hp, List.append_assoc]⟩

theorem closes_of_dropWhile (cs r3 rest : List Char) (h1 : r3 <:+ cs)
    (h2 : r3.dropWhile jsonWsChar = '}' :: rest) :
    ∃ pre, cs = pre ++ '}' :: rest := by
  obtain ⟨x, hx⟩ := h1
  have h3 : r3 = r3.takeWhile jsonWsChar ++ '}' :: rest := by
    rw [← h2, List.takeWhile_append_dropWhile]
  refine ⟨x ++ r3.takeWhile jsonWsChar, ?_⟩
  rw [← hx]
  conv_lhs => rw [h3]
  rw [List.append_assoc]

theorem pMembers_closes : ∀ f cs kvs rest,
    pMembers f cs = some (kvs, rest) → ∃ pre, cs = pre ++ '}' :: rest := by
  intro f
  induction f with
  | zero => intro cs kvs rest h; simp [pMembers] at h
  | succ f ih =>
    intro cs kvs rest h
    rw [pMembers] at h
    repeat' (first
      | split at h
      | (obtain ⟨-, h⟩ := h))
    all_goals try simp at h
    all_goals try (obtain ⟨h1, h2⟩ := h; subst h2)
    all_goals try (exact append_closes _ _ _ ((suffix_of_dropWhile_eq jsonWsChar _ [_] _ (by assumption)).trans (((parser_suffix f).1 _ _ _ (by assumption)).trans ((suffix_of_dropWhile_eq jsonWsChar _ [_] _ (by assumption)).trans ((pStr_suffix _ _ _ (by assumption)).trans (suffix_of_dropWhile_eq jsonWsChar _ [_] _ (by assumption)))))) (ih _ _ _ (by assumption)))
    all_goals try (exact closes_of_dropWhile _ _ _ (((parser_suffix f).1 _ _ _ (by assumption)).trans ((suffix_of_dropWhile_eq jsonWsChar _ [_] _ (by assumption)).trans ((pStr_suffix _ _ _ (by assumption)).trans (suffix_of_dropWhile_eq jsonWsChar _ [_] _ (by assumption))))) (by assumption))

theorem pVal_obj_closes (f : Nat) (cs : List Char)
    (kvs : List (List Char × Json)) (rest : List Char)
    (h : pVal f cs = some (.obj kvs, rest)) :
    ∃ pre, cs = pre ++ '}' :: rest := by
  match f with
  | 0 => simp [pVal] at h
  | Nat.succ f =>
    rw [pVal] at h
    repeat' (first
      | split at h
      | (obtain ⟨-, h⟩ := h))
    all_goals try simp at h
    all_goals try (obtain ⟨h1, h2⟩ := h; subst h2)
    all_goals try (exact closes_of_dropWhile _ _ _ (suffix_of_dropWhile_eq jsonWsChar _ [_] _ (by assumption)) (by assumption))
    all_goals try (exact append_closes _ _ _ (suffix_of_dropWhile_eq jsonWsChar _ [_] _ (by assumption)) (pMembers_closes f _ _ _ (by assumption)))

theorem json_ws_py (c : Char) (h : jsonWsChar c = true) : pyWsChar c = true := by
  simp only [jsonWsChar, Bool.or_eq_true] at h
  simp only [pyWsChar, Bool.or_eq_true]
  tauto

theorem digit_ne (c d : Char) (h : isDigitC c = true)
    (hd : isDigitC d = false) : c ≠ d :=
  fun he => absurd (he ▸ h) (by simp [hd])

theorem grave_num_head (cs : List Char) (c : Char) (r : List Char)
    (heq : cs.dropWhile jsonWsChar = c :: r)
    (hguard : (c == '-' || isDigitC c) = true) :
    ∃ c2 r2, cs.dropWhile jsonWsChar = c2 :: r2 ∧ ('`' == c2) = false ∧
      pyWsChar c2 = false := by
  refine ⟨c, r, heq, ?_, ?_⟩
  · rcases (Bool.or_eq_true _ _).mp hguard with hminus | hdig
    · rw [eq_of_beq hminus]; decide
    · exact beq_eq_false_iff_ne.mpr (fun he => digit_ne c '`' hdig (by decide) he.symm)
  · rcases (Bool.or_eq_true _ _).mp hguard with hminus | hdig
    · rw [eq_of_beq hminus]; decide
    · simp only [pyWsChar, Bool.or_eq_false_iff]
      refine ⟨⟨⟨⟨⟨?_, ?_⟩, ?_⟩, ?_⟩, ?_⟩, ?_⟩ <;>
        exact beq_eq_false_iff_ne.mpr (digit_ne c _ hdig (by decide))

theorem pVal_head (f : Nat) (cs : List Char) (v : Json) (rest : List Char)
    (h : pVal f cs = some (v, rest)) :
    ∃ c r, cs.dropWhile jsonWsChar = c :: r ∧ ('`' == c) = false ∧
      pyWsChar c = false := by
  match f with
  | 0 => simp [pVal] at h
  | Nat.succ f =>
    rw [pVal] at h
    repeat' (first
      | split at h
      | (obtain ⟨-, h⟩ := h))
    all_goals try simp at h
    all_goals try (exact grave_num_head _ _ _ (by assumption) (by assumption))
    all_goals (exact ⟨_, _, by assumption, by decide, by decide⟩)

theorem pyStrip_head_not_ws (l : List Char) (d : Char) (ds : List Char)
    (h : pyStrip l = d :: ds) : pyWsChar d = false := by
  have h1 : trimLeft pyWsChar (pyStrip l) = pyStrip l :=
    trimLeft_of_trimRight_head pyWsChar l
  rw [h] at h1
  exact head_dropWhile_false pyWsChar (d :: ds) d ds h1

theorem pyStrip_dropWhile_json (l : List Char) :
    (pyStrip l).dropWhile jsonWsChar = pyStrip l := by
  cases h : pyStrip l with
  | nil => rfl
  | cons d ds =>
    have hd : pyWsChar d = false := pyStrip_head_not_ws l d ds h
    have hjd : jsonWsChar d = false := by
      cases hj : jsonWsChar d with
      | false => rfl
      | true => exact absurd (json_ws_py d hj) (by simp [hd])
    simp [List.dropWhile_cons, hjd]

theorem pyStrip_rest_nil (l pre r : List Char) (c : Char)
    (h : pyStrip l = pre ++ c :: r) (hall : ∀ d ∈ r, jsonWsChar d = true) :
    r = [] := by
  rcases List.eq_nil_or_concat r with hr | ⟨L, b, hr⟩
  · exact hr
  · exfalso
    subst hr
    have hb : pyWsChar b = false := by
      refine trimRight_last_false pyWsChar (trimLeft pyWsChar l)
        (pre ++ c :: L) b ?_
      show pyStrip l = (pre ++ c :: L) ++ [b]
      rw [h, List.concat_eq_append]
      simp
    have hb2 : pyWsChar b = true :=
      json_ws_py b (hall b (by simp [List.concat_eq_append]))
    simp [hb] at hb2

theorem validateFor_obj (t : DocumentType) (v : Json) (rec : ExtractionRecord)
    (h : validateFor t v = some rec) : ∃ kvs, v = Json.obj kvs := by
  cases v
  case obj kvs => exact ⟨kvs, rfl⟩
  all_goals (rw [validateFor] at h
             split at h <;>
               simp [vBank, vInsurance, vAccident, vInvoice, vGeneral] at h)

theorem cleanResponseText_of_parse (l : List Char)
    (kvs : List (List Char × Json))
    (hp : Json.parse (pyStrip l) = some (Json.obj kvs)) :
    cleanResponseText l = pyStrip l := by
  rw [Json.parse] at hp
  split at hp
  case h_2 => simp at hp
  case h_1 v r heq =>
    split at hp
    case isFalse => simp at hp
    case isTrue hcond =>
      have hv : v = Json.obj kvs := by simpa using hp
      subst hv
      obtain ⟨c, rr, hdw, hgc, -⟩ := pVal_head _ _ _ _ heq
      rw [pyStrip_dropWhile_json l] at hdw
      obtain ⟨pre, hpre⟩ := pVal_obj_closes _ _ _ _ heq
      have h0 : r.dropWhile jsonWsChar = [] := by
        cases hdrop : r.dropWhile jsonWsChar with
        | nil => rfl
        | cons a as => rw [hdrop] at hcond; simp [List.isEmpty] at hcond
      have hall : ∀ d ∈ r, jsonWsChar d = true := by
        have := List.dropWhile_eq_nil_iff.mp h0
        simpa using this
      have hrnil : r = [] := pyStrip_rest_nil l pre r '}' hpre hall
      subst hrnil
      have hpreP : ¬((['`', '`', '`', 'j', 's', 'o', 'n'] : List Char)
          <+: pyStrip l) := by
        rw [hdw]
        rintro ⟨tl, htl⟩
        simp only [List.cons_append] at htl
        injection htl with h1 h2
        rw [← h1] at hgc
        simp at hgc
      have hsufP : ¬((['`', '`', '`'] : List Char) <:+ pyStrip l) := by
        rw [hpre]
        rintro ⟨tl, htl⟩
        have h2 := congrArg List.reverse htl
        simp only [List.reverse_append, List.reverse_cons, List.reverse_nil,
          List.nil_append, List.cons_append, List.append_assoc] at h2
        injection h2 with h3 h4
        exact absurd h3 (by decide)
      simp [cleanResponseText, hpreP, hsufP, pyStrip_idem]

theorem take_len_append (l m : List Char) : (l ++ m).take l.length = l := by
  induction l with
  | nil => rfl
  | cons a l ih => simp [ih]

theorem trimRight_append_singleton (p : Char → Bool) (x : List Char) (c : Char)
    (h : p c = false) : trimRight p (x ++ [c]) = x ++ [c] := by
  unfold trimRight
  rw [List.reverse_append]
  simp [List.dropWhile_cons, h]

theorem fence_strip (l : List Char) :
    pyStrip ('`' :: '`' :: '`' :: 'j' :: 's' :: 'o' :: 'n' :: '\n' ::
        (l ++ ['\n', '`', '`', '`']))
      = '`' :: '`' :: '`' :: 'j' :: 's' :: 'o' :: 'n' :: '\n' ::
        (l ++ ['\n', '`', '`', '`']) := by
  unfold pyStrip
  rw [trimLeft_eq_self_of_head pyWsChar '`' _ (by decide)]
  rw [show ('`' :: '`' :: '`' :: 'j' :: 's' :: 'o' :: 'n' :: '\n' ::
        (l ++ ['\n', '`', '`', '`']))
      = ('`' :: '`' :: '`' :: 'j' :: 's' :: 'o' :: 'n' :: '\n' ::
        (l ++ ['\n', '`', '`'])) ++ ['`'] from by simp]
  rw [trimRight_append_singleton pyWsChar _ '`' (by decide)]

theorem cleanResponseText_fence (l : List Char) :
    cleanResponseText ('`' :: '`' :: '`' :: 'j' :: 's' :: 'o' :: 'n' :: '\n' ::
      (l ++ ['\n', '`', '`', '`'])) = pyStrip l := by
  have hpreP : (['`', '`', '`', 'j', 's', 'o', 'n'] : List Char)
      <+: ('`' :: '`' :: '`' :: 'j' :: 's' :: 'o' :: 'n' :: '\n' ::
        (l ++ ['\n', '`', '`', '`'])) :=
    ⟨'\n' :: (l ++ ['\n', '`', '`', '`']), by simp⟩
  have hdrop : List.drop 7 ('`' :: '`' :: '`' :: 'j' :: 's' :: 'o' :: 'n' :: '\n' ::
      (l ++ ['\n', '`', '`', '`'])) = '\n' :: (l ++ ['\n', '`', '`', '`']) := rfl
  have hsufP : (['`', '`', '`'] : List Char)
      <:+ ('\n' :: (l ++ ['\n', '`', '`', '`'])) :=
    ⟨'\n' :: (l ++ ['\n']), by simp⟩
  have htake : ('\n' :: (l ++ ['\n', '`', '`', '`'])).take
      (('\n' :: (l ++ ['\n', '`', '`', '`'])).length - 3) = '\n' :: (l ++ ['\n']) := by
    rw [show ('\n' :: (l ++ ['\n', '`', '`', '`'])).length - 3
        = ('\n' :: (l ++ ['\n'])).length from by simp]
    rw [show ('\n' :: (l ++ ['\n', '`', '`', '`']))
        = ('\n' :: (l ++ ['\n'])) ++ ['`', '`', '`'] from by simp]
    exact take_len_append _ _
  have hwrap : pyStrip ('\n' :: (l ++ ['\n'])) = pyStrip l := by
    rw [show ('\n' :: (l ++ ['\n'])) = ['\n'] ++ (l ++ ['\n']) from rfl]
    exact pyStrip_wrap ['\n'] l ['\n'] (by decide) (by decide)
  have hpreB : (['`', '`', '`', 'j', 's', 'o', 'n'] : List Char).isPrefixOf
      ('`' :: '`' :: '`' :: 'j' :: 's' :: 'o' :: 'n' :: '\n' ::
        (l ++ ['\n', '`', '`', '`'])) = true :=
    List.isPrefixOf_iff_prefix.mpr hpreP
  have hsufB : (['`', '`', '`'] : List Char).isSuffixOf
      ('\n' :: (l ++ ['\n', '`', '`', '`'])) = true :=
    List.isSuffixOf_iff_suffix.mpr hsufP
  simp only [cleanResponseText]
  rw [fence_strip l]
  simp only [hpreB, eq_self_iff_true, if_true]
  rw [hdrop]
  simp only [hsufB, eq_self_iff_true, if_true]
  rw [htake]
  exact hwrap

theorem parse_structured_eq (s : String) (t : DocumentType)
    (kvs : List (List Char × Json)) (rec : ExtractionRecord)
    (h1 : Json.parse (cleanResponseText s.data) = some (Json.obj kvs))
    (h2 : validateFor t (Json.obj kvs) = some rec) :
    parse_structured_response s t = .structured rec := by
  simp [parse_structured_response, parse_structured_response_cfg, h1, h2]

/-- C5: fence-stripping is transparent: for every document type `t` and JSON
body `j` that validates against the schema selected for `t`, the pipeline
yields the same structured record whether the body arrives bare or wrapped in
a ```` ```json … ``` ```` markdown fence. -/
theorem claim_C5 (t : DocumentType) (j : String) (v : Json)
    (rec : ExtractionRecord)
    (hp : Json.parse (pyStrip j.data) = some v)
    (hv : validateFor t v = some rec) :
    parse_structured_response
        ⟨'`' :: '`' :: '`' :: 'j' :: 's' :: 'o' :: 'n' :: '\n' ::
          (j.data ++ ['\n', '`', '`', '`'])⟩ t = .structured rec ∧
    parse_structured_response j t = .structured rec := by
  obtain ⟨kvs, rfl⟩ := validateFor_obj t v rec hv
  refine ⟨parse_structured_eq _ t kvs rec ?_ hv,
    parse_structured_eq _ t kvs rec ?_ hv⟩
  · show Json.parse (cleanResponseText ('`' :: '`' :: '`' :: 'j' :: 's' ::
      'o' :: 'n' :: '\n' :: (j.data ++ ['\n', '`', '`', '`'])))
      = some (Json.obj kvs)
    rw [cleanResponseText_fence]
    exact hp
  · rw [cleanResponseText_of_parse j.data kvs hp]
    exact hp

theorem claim_C5_witness :
    parse_structured_response
        ⟨'`' :: '`' :: '`' :: 'j' :: 's' :: 'o' :: 'n' :: '\n' ::
          ("\x7b\"document_type\":\"bank_statement\"\x7d".data ++
            ['\n', '`', '`', '`'])⟩ .bank_statement
      = .structured (.bank ⟨.bank_statement, none, none, none, none, none,
          none, none, none, [], none, none, none⟩) ∧
    parse_structured_response "\x7b\"document_type\":\"bank_statement\"\x7d"
        .bank_statement
      = .structured (.bank ⟨.bank_statement, none, none, none, none, none,
          none, none, none, [], none, none, none⟩) :=
  claim_C5 .bank_statement "\x7b\"document_type\":\"bank_statement\"\x7d"
    (.obj [("document_type".data, .str "bank_statement".data)])
    (.bank ⟨.bank_statement, none, none, none, none, none, none, none, none,
      [], none, none, none⟩) (by rfl) (by rfl)

theorem dropWhile_len (q : Char → Bool) (x pre y : List Char)
    (h : x.dropWhile q = pre ++ y) : pre.length + y.length ≤ x.length := by
  have h2 : (x.dropWhile q).length ≤ x.length :=
    (List.dropWhile_suffix q).length_le
  rw [h] at h2
  simpa using h2

theorem parser_fuel : ∀ g : Nat,
    (∀ f cs v rest, pVal f cs = some (v, rest) →
      cs.length - rest.length < g → pVal g cs = some (v, rest)) ∧
    (∀ f cs kvs rest, pMembers f cs = some (kvs, rest) →
      cs.length - rest.length < g → pMembers g cs = some (kvs, rest)) ∧
    (∀ f cs vs rest, pElems f cs = some (vs, rest) →
      cs.length - rest.length < g → pElems g cs = some (vs, rest)) := by
  intro g
  induction g with
  | zero => refine ⟨?_, ?_, ?_⟩ <;> (intro f cs a rest h hg; omega)
  | succ g ihg =>
    obtain ⟨ihV, ihM, ihE⟩ := ihg
    refine ⟨?_, ?_, ?_⟩
    · intro f cs v rest h hg
      match f with
      | 0 => simp [pVal] at h
      | Nat.succ f =>
        rw [pVal] at h
        rw [pVal]
        split
        all_goals rename_i heq
        all_goals try (simp only [heq] at h; exact h)
        case h_5 =>
          rename_i hx0 r
          simp only [heq] at h
          have hlen : 1 + r.length ≤ cs.length := by
            have := dropWhile_len jsonWsChar cs ['{'] r (by simpa using heq)
            simpa using this
          split
          · rename_i r2 heq2
            simp only [heq2] at h
            exact h
          · rename_i hx hne
            split at h
            · rename_i r2 heq2
              exact absurd heq2 (hne r2)
            · split at h
              · rename_i kvs r2 hm
                simp only [Option.some.injEq, Prod.mk.injEq] at h
                obtain ⟨h1, h2⟩ := h
                subst h1 h2
                have hsuf : r2.length ≤ r.length :=
                  ((parser_suffix f).2.1 _ _ _ hm).length_le
                have hm2 : pMembers g r = some (kvs, r2) :=
                  ihM f _ kvs r2 hm (by omega)
                simp only [hm2]
              · simp at h
        case h_6 =>
          rename_i hx0 r
          simp only [heq] at h
          have hlen : 1 + r.length ≤ cs.length := by
            have := dropWhile_len jsonWsChar cs ['['] r (by simpa using heq)
            simpa using this
          split
          · rename_i r2 heq2
            simp only [heq2] at h
            exact h
          · rename_i hx hne
            split at h
            · rename_i r2 heq2
              exact absurd heq2 (hne r2)
            · split at h
              · rename_i vs r2 hm
                simp only [Option.some.injEq, Prod.mk.injEq] at h
                obtain ⟨h1, h2⟩ := h
                subst h1 h2
                have hsuf : r2.length ≤ r.length :=
                  ((parser_suffix f).2.2 _ _ _ hm).length_le
                have hm2 : pElems g r = some (vs, r2) :=
                  ihE f _ vs r2 hm (by omega)
                simp only [hm2]
              · simp at h
    · intro f cs kvs rest h hg
      match f with
      | 0 => simp [pMembers] at h
      | Nat.succ f =>
        rw [pMembers] at h
        split at h
        · rename_i r heq1
          split at h
          · rename_i k r1 hk
            split at h
            · rename_i r2 heq2
              split at h
              · rename_i v1 r3 hv
                split at h
                · rename_i r4 heq3
                  split at h
                  · rename_i kvs1 r5 hm
                    simp only [Option.some.injEq, Prod.mk.injEq] at h
                    obtain ⟨h1, h2⟩ := h
                    subst h1 h2
                    have l1 := dropWhile_len jsonWsChar cs ['"'] r
                      (by simpa using heq1)
                    simp at l1
                    have l2 : r1.length ≤ r.length :=
                      (pStr_suffix _ _ _ hk).length_le
                    have l3 := dropWhile_len jsonWsChar r1 [':'] r2
                      (by simpa using heq2)
                    simp at l3
                    have l4 : r3.length ≤ r2.length :=
                      ((parser_suffix f).1 _ _ _ hv).length_le
                    have l5 := dropWhile_len jsonWsChar r3 [','] r4
                      (by simpa using heq3)
                    simp at l5
                    have l6 : r5.length ≤ r4.length :=
                      ((parser_suffix f).2.1 _ _ _ hm).length_le
                    have hv2 : pVal g r2 = some (v1, r3) :=
                      ihV f _ _ _ hv (by omega)
                    have hm2 : pMembers g r4 = some (kvs1, r5) :=
                      ihM f _ _ _ hm (by omega)
                    rw [pMembers]
                    simp only [heq1, hk, heq2, hv2, heq3, hm2]
                  · simp at h
                · rename_i r4 heq3
                  simp only [Option.some.injEq, Prod.mk.injEq] at h
                  obtain ⟨h1, h2⟩ := h
                  subst h1 h2
                  have l1 := dropWhile_len jsonWsChar cs ['"'] r
                    (by simpa using heq1)
                  simp at l1
                  have l2 : r1.length ≤ r.length :=
                    (pStr_suffix _ _ _ hk).length_le
                  have l3 := dropWhile_len jsonWsChar r1 [':'] r2
                    (by simpa using heq2)
                  simp at l3
                  have l4 : r3.length ≤ r2.length :=
                    ((parser_suffix f).1 _ _ _ hv).length_le
                  have l5 := dropWhile_len jsonWsChar r3 ['}'] r4
                    (by simpa using heq3)
                  simp at l5
                  have hv2 : pVal g r2 = some (v1, r3) :=
                    ihV f _ _ _ hv (by omega)
                  rw [pMembers]
                  simp only [heq1, hk, heq2, hv2, heq3]
                · simp at h
              · simp at h
            · simp at h
          · simp at h
        · simp at h
    · intro f cs vs rest h hg
      match f with
      | 0 => simp [pElems] at h
      | Nat.succ f =>
        rw [pElems] at h
        split at h
        · rename_i v1 r1 hv
          split at h
          · rename_i r2 heq2
            split at h
            · rename_i vs1 r3 hm
              simp only [Option.some.injEq, Prod.mk.injEq] at h
              obtain ⟨h1, h2⟩ := h
              subst h1 h2
              have l1 : r1.length ≤ cs.length :=
                ((parser_suffix f).1 _ _ _ hv).length_le
              have l2 := dropWhile_len jsonWsChar r1 [','] r2
                (by simpa using heq2)
              simp at l2
              have l3 : r3.length ≤ r2.length :=
                ((parser_suffix f).2.2 _ _ _ hm).length_le
              have hv2 : pVal g cs = some (v1, r1) :=
                ihV f _ _ _ hv (by omega)
              have hm2 : pElems g r2 = some (vs1, r3) :=
                ihE f _ _ _ hm (by omega)
              rw [pElems]
              simp only [hv2, heq2, hm2]
            · simp at h
          · rename_i r2 heq2
            simp only [Option.some.injEq, Prod.mk.injEq] at h
            obtain ⟨h1, h2⟩ := h
            subst h1 h2
            have l1 : r1.length ≤ cs.length :=
              ((parser_suffix f).1 _ _ _ hv).length_le
            have l2 := dropWhile_len jsonWsChar r1 [']'] r2
              (by simpa using heq2)
            simp at l2
            have hv2 : pVal g cs = some (v1, r1) :=
              ihV f _ _ _ hv (by omega)
            rw [pElems]
            simp only [hv2, heq2]
          · simp at h
        · simp at h

theorem Json.parse_of_pVal (cs : List Char) (v : Json) (f : Nat)
    (h : pVal f cs = some (v, [])) : Json.parse cs = some v := by
  have h2 : pVal (cs.length + 1) cs = some (v, []) :=
    (parser_fuel (cs.length + 1)).1 f cs v [] h (by simp)
  simp [Json.parse, h2]

theorem decNormLoop_toRat : ∀ f (m e : Int),
    (decNormLoop f m e).toRat = Dec.toRat ⟨m, e⟩ := by
  intro f
  induction f with
  | zero => intro m e; rfl
  | succ f ih =>
    intro m e
    rw [decNormLoop]
    split
    · rename_i h0
      subst h0
      simp [Dec.toRat]
    · split
      · rename_i h0 h10
        rw [ih]
        have hdvd : (10 : Int) ∣ m := Int.dvd_of_emod_eq_zero h10
        have hm : ((m / 10 : Int) : ℚ) * 10 = (m : ℚ) := by
          have h2 : (m / 10) * 10 = m := Int.ediv_mul_cancel hdvd
          exact_mod_cast h2
        simp only [Dec.toRat]
        rw [zpow_add₀ (by norm_num : (10 : ℚ) ≠ 0) e 1, zpow_one]
        rw [← hm]
        ring
      · rfl

theorem Dec.normalize_toRat (d : Dec) : d.normalize.toRat = d.toRat := by
  rw [Dec.normalize, decNormLoop_toRat]

theorem decNormLoop_norm : ∀ f (m e : Int), m.natAbs < f →
    ((decNormLoop f m e).man = 0 → (decNormLoop f m e).exp = 0) ∧
    ((decNormLoop f m e).man ≠ 0 → ¬ (10 : Int) ∣ (decNormLoop f m e).man) := by
  intro f
  induction f with
  | zero => intro m e h; omega
  | succ f ih =>
    intro m e h
    rw [decNormLoop]
    split
    · exact ⟨fun _ => rfl, fun hc => absurd rfl hc⟩
    · split
      · rename_i h0 h10
        refine ih (m / 10) (e + 1) ?_
        have hge : 10 ≤ m.natAbs := by
          rcases Int.natAbs_eq m with hm | hm <;> omega
        have hdvd : (10 : Int) ∣ m := Int.dvd_of_emod_eq_zero h10
        have h3 := congrArg Int.natAbs (Int.ediv_mul_cancel hdvd)
        simp only [Int.natAbs_mul] at h3
        omega
      · rename_i h0 h10
        refine ⟨fun hc => absurd hc h0, fun _ hdvd => h10 ?_⟩
        have hdvd2 : (10 : Int) ∣ m := hdvd
        exact Int.emod_eq_zero_of_dvd hdvd2

theorem Dec.normalize_norm (d : Dec) :
    (d.normalize.man = 0 → d.normalize.exp = 0) ∧
    (d.normalize.man ≠ 0 → ¬ (10 : Int) ∣ d.normalize.man) :=
  decNormLoop_norm (d.man.natAbs + 1) d.man d.exp (by omega)

theorem Dec.normalize_of_norm (d : Dec) (h0 : d.man = 0 → d.exp = 0)
    (h10 : d.man ≠ 0 → ¬ (10 : Int) ∣ d.man) : d.normalize = d := by
  rw [Dec.normalize]
  rw [show d.man.natAbs + 1 = Nat.succ d.man.natAbs from rfl, decNormLoop]
  split
  · rename_i hz
    have := h0 hz
    cases d
    simp_all
  · rename_i hz
    rw [if_neg]
    intro hmod
    exact h10 hz (Int.dvd_of_emod_eq_zero hmod)

theorem Dec.normalize_idem (d : Dec) : d.normalize.normalize = d.normalize :=
  Dec.normalize_of_norm _ (Dec.normalize_norm d).1 (Dec.normalize_norm d).2

theorem Dec.sameVal_of_toRat_eq (a b : Dec) (h : a.toRat = b.toRat) :
    a.sameVal b = true := by
  rw [Dec.sameVal]
  simp only [Dec.toRat] at h
  split
  · rename_i hle
    refine decide_eq_true ?_
    have hk : b.exp = a.exp + ((b.exp - a.exp).toNat : Int) := by omega
    rw [hk, zpow_add₀ (by norm_num : (10 : ℚ) ≠ 0), zpow_natCast] at h
    have h2 : (a.man : ℚ) = b.man * 10 ^ (b.exp - a.exp).toNat := by
      have hne : (10 : ℚ) ^ a.exp ≠ 0 := zpow_ne_zero _ (by norm_num)
      have h3 : (a.man : ℚ) * 10 ^ a.exp
          = (b.man * 10 ^ (b.exp - a.exp).toNat) * 10 ^ a.exp := by
        rw [h]; ring
      exact mul_right_cancel₀ hne h3
    exact_mod_cast h2
  · rename_i hle
    refine decide_eq_true ?_
    have hk : a.exp = b.exp + ((a.exp - b.exp).toNat : Int) := by omega
    rw [hk, zpow_add₀ (by norm_num : (10 : ℚ) ≠ 0), zpow_natCast] at h
    have h2 : (a.man : ℚ) * 10 ^ (a.exp - b.exp).toNat = b.man := by
      have hne : (10 : ℚ) ^ b.exp ≠ 0 := zpow_ne_zero _ (by norm_num)
      have h3 : ((a.man : ℚ) * 10 ^ (a.exp - b.exp).toNat) * 10 ^ b.exp
          = (b.man : ℚ) * 10 ^ b.exp := by
        rw [← h]; ring
      exact mul_right_cancel₀ hne h3
    exact_mod_cast h2

theorem Dec.sameVal_normalize (d : Dec) : d.sameVal d.normalize = true :=
  Dec.sameVal_of_toRat_eq d d.normalize (Dec.normalize_toRat d).symm

theorem Dec.sameVal_refl (d : Dec) : d.sameVal d = true :=
  Dec.sameVal_of_toRat_eq d d rfl

theorem dval_digitChar (n : Nat) (h : n < 10) : dval (digitChar n) = n := by
  interval_cases n <;> decide

theorem isDigitC_digitChar (n : Nat) (h : n < 10) :
    isDigitC (digitChar n) = true := by
  interval_cases n <;> decide

theorem digitChar_ne_zero (n : Nat) (h1 : 1 ≤ n) (h : n < 10) :
    (digitChar n == '0') = false := by
  interval_cases n <;> decide

theorem natVal_foldl : ∀ (b : List Char) (acc : Nat),
    List.foldl (fun a c => a * 10 + dval c) acc b
      = acc * 10 ^ b.length + natVal b := by
  intro b
  induction b with
  | nil => intro acc; simp [natVal]
  | cons c b ih =>
    intro acc
    have h1 : natVal (c :: b) = dval c * 10 ^ b.length + natVal b := by
      have := ih (dval c)
      simpa [natVal] using this
    simp only [List.foldl_cons]
    rw [ih (acc * 10 + dval c), h1]
    simp [List.length_cons, pow_succ]
    ring

theorem natVal_append (a b : List Char) :
    natVal (a ++ b) = natVal a * 10 ^ b.length + natVal b := by
  unfold natVal
  rw [List.foldl_append]
  exact natVal_foldl b _

theorem natVal_append_single (l : List Char) (c : Char) :
    natVal (l ++ [c]) = natVal l * 10 + dval c := by
  rw [natVal_append]
  simp [natVal]

theorem natVal_replicate_zero (m : Nat) :
    natVal (List.replicate m '0') = 0 := by
  induction m with
  | zero => rfl
  | succ m ih =>
    have h1 : natVal ('0' :: List.replicate m '0')
        = 0 * 10 ^ (List.replicate m '0').length + natVal (List.replicate m '0') := by
      have := natVal_foldl (List.replicate m '0') (dval '0')
      simpa [natVal, dval] using this
    simpa [List.replicate_succ, ih] using h1

theorem natDigits_spec : ∀ f n, n < f →
    natVal (natDigits f n) = n ∧
    (∀ c ∈ natDigits f n, isDigitC c = true) ∧
    natDigits f n ≠ [] ∧
    (1 ≤ n → ((natDigits f n).headI == '0') = false) := by
  intro f
  induction f with
  | zero => intro n h; omega
  | succ f ih =>
    intro n h
    rw [natDigits]
    split
    · rename_i h10
      refine ⟨by simp [natVal, dval_digitChar n h10], ?_, by simp, ?_⟩
      · intro c hc
        simp at hc
        subst hc
        exact isDigitC_digitChar n h10
      · intro h1
        simpa using digitChar_ne_zero n h1 h10
    · rename_i h10
      push_neg at h10
      have hdiv : n / 10 < f := by
        have := Nat.div_lt_self (by omega : 0 < n) (by omega : 1 < 10)
        omega
      obtain ⟨ihv, ihd, ihn, ihz⟩ := ih (n / 10) hdiv
      refine ⟨?_, ?_, by simp, ?_⟩
      · rw [natVal_append_single, ihv, dval_digitChar _ (by omega)]
        omega
      · intro c hc
        simp at hc
        rcases hc with hc | hc
        · exact ihd c hc
        · subst hc; exact isDigitC_digitChar _ (by omega)
      · intro h1
        cases hnd : natDigits f (n / 10) with
        | nil => exact absurd hnd ihn
        | cons x xs =>
          have := ihz (by omega)
          rw [hnd] at this
          simpa [hnd] using this

theorem natToChars_spec (n : Nat) :
    natVal (natToChars n) = n ∧
    (∀ c ∈ natToChars n, isDigitC c = true) ∧
    natToChars n ≠ [] ∧
    (1 ≤ n → ((natToChars n).headI == '0') = false) :=
  natDigits_spec (n + 1) n (by omega)

theorem takeWhile_append_stop (p : Char → Bool) (a : List Char) (s : Char)
    (r : List Char) (ha : ∀ c ∈ a, p c = true) (hs : p s = false) :
    (a ++ s :: r).takeWhile p = a ∧ (a ++ s :: r).dropWhile p = s :: r := by
  induction a with
  | nil => simp [List.takeWhile_cons, List.dropWhile_cons, hs]
  | cons c a ih =>
    have hc : p c = true := ha c (by simp)
    have hrest : ∀ x ∈ a, p x = true := fun x hx => ha x (by simp [hx])
    obtain ⟨ih1, ih2⟩ := ih hrest
    constructor
    · simp only [List.cons_append, List.takeWhile_cons, hc, if_true]
      rw [ih1]
    · simp only [List.cons_append, List.dropWhile_cons, hc, if_true]
      rw [ih2]

theorem pNumBody_int (neg : Bool) (ds : List Char) (c : Char) (rest : List Char)
    (hdig : ∀ x ∈ ds, isDigitC x = true) (hne : ds ≠ [])
    (hnolz : 2 ≤ ds.length → (ds.headI == '0') = false)
    (hcd : isDigitC c = false) (hcdot : (c == '.') = false)
    (hce : (c == 'e') = false) (hcE : (c == 'E') = false) :
    pNumBody neg (ds ++ c :: rest) = some (mkDec neg ds [] 0, c :: rest) := by
  obtain ⟨htw, hdw⟩ := takeWhile_append_stop isDigitC ds c rest hdig hcd
  rw [pNumBody, htw, hdw]
  rw [if_neg (by simp [List.isEmpty_iff, hne])]
  rw [if_neg ?hc2]
  case hc2 =>
    intro hcon
    simp only [Bool.and_eq_true, decide_eq_true_eq] at hcon
    exact absurd hcon.2 (by simp [hnolz hcon.1])
  rw [pNumFracPart]
  simp only [hcdot, Bool.false_eq_true, if_false]
  simp only [pNumExpPart, hce, hcE, Bool.or_self, Bool.false_eq_true,
    if_false, Bool.or_false]

theorem pNumBody_exp (neg : Bool) (ds es : List Char) (c : Char)
    (rest : List Char)
    (hdig : ∀ x ∈ ds, isDigitC x = true) (hne : ds ≠ [])
    (hnolz : 2 ≤ ds.length → (ds.headI == '0') = false)
    (hesd : ∀ x ∈ es, isDigitC x = true) (hesne : es ≠ [])
    (hcd : isDigitC c = false) :
    pNumBody neg (ds ++ 'e' :: (es ++ c :: rest))
      = some (mkDec neg ds [] (natVal es : Int), c :: rest) := by
  obtain ⟨htw, hdw⟩ :=
    takeWhile_append_stop isDigitC ds 'e' (es ++ c :: rest) hdig (by decide)
  rw [pNumBody, htw, hdw]
  rw [if_neg (by simp [List.isEmpty_iff, hne])]
  rw [if_neg ?hc2]
  case hc2 =>
    intro hcon
    simp only [Bool.and_eq_true, decide_eq_true_eq] at hcon
    exact absurd hcon.2 (by simp [hnolz hcon.1])
  rw [pNumFracPart]
  simp only [show (('e' : Char) == '.') = false from rfl, Bool.false_eq_true,
    if_false]
  cases es with
  | nil => exact absurd rfl hesne
  | cons e1 es1 =>
    have he1 : isDigitC e1 = true := hesd e1 (by simp)
    have hp : (e1 == '+') = false := by
      cases hb : e1 == '+'
      · rfl
      · rw [eq_of_beq hb] at he1
        exact absurd he1 (by decide)
    have hm : (e1 == '-') = false := by
      cases hb : e1 == '-'
      · rfl
      · rw [eq_of_beq hb] at he1
        exact absurd he1 (by decide)
    simp only [pNumExpPart,
      show (('e' : Char) == 'e' || ('e' : Char) == 'E') = true from rfl,
      if_true, List.cons_append, hp, hm, Bool.false_eq_true, if_false]
    obtain ⟨htw2, hdw2⟩ := takeWhile_append_stop isDigitC (e1 :: es1) c rest
      hesd hcd
    rw [show e1 :: (es1 ++ c :: rest) = (e1 :: es1) ++ c :: rest from by simp]
    rw [pNumExpDigits, htw2, hdw2]
    rw [if_neg (by simp [List.isEmpty_iff])]
    simp

theorem pNumBody_frac (neg : Bool) (ids fds : List Char) (c : Char)
    (rest : List Char)
    (hdig : ∀ x ∈ ids, isDigitC x = true) (hne : ids ≠ [])
    (hnolz : 2 ≤ ids.length → (ids.headI == '0') = false)
    (hfd : ∀ x ∈ fds, isDigitC x = true) (hfne : fds ≠ [])
    (hcd : isDigitC c = false) (hce : (c == 'e') = false)
    (hcE : (c == 'E') = false) :
    pNumBody neg (ids ++ '.' :: (fds ++ c :: rest))
      = some (mkDec neg ids fds 0, c :: rest) := by
  obtain ⟨htw, hdw⟩ :=
    takeWhile_append_stop isDigitC ids '.' (fds ++ c :: rest) hdig (by decide)
  rw [pNumBody, htw, hdw]
  rw [if_neg (by simp [List.isEmpty_iff, hne])]
  rw [if_neg ?hc2]
  case hc2 =>
    intro hcon
    simp only [Bool.and_eq_true, decide_eq_true_eq] at hcon
    exact absurd hcon.2 (by simp [hnolz hcon.1])
  rw [pNumFracPart]
  simp only [show (('.' : Char) == '.') = true from rfl, if_true]
  obtain ⟨htw2, hdw2⟩ := takeWhile_append_stop isDigitC fds c rest hfd hcd
  rw [htw2, hdw2]
  rw [if_neg (by simp [List.isEmpty_iff, hfne])]
  simp only [pNumExpPart, hce, hcE, Bool.or_self, Bool.false_eq_true,
    if_false, Bool.or_false]

theorem beq_false_of_digit (a x : Char) (h : isDigitC a = true)
    (hx : isDigitC x = false) : (a == x) = false := by
  cases hb : a == x
  · rfl
  · rw [eq_of_beq hb] at h
    rw [h] at hx
    cases hx

theorem pNum_minus (br : List Char) : pNum ('-' :: br) = pNumBody true br := by
  rw [pNum]
  rfl

theorem pNum_digit_head (b1 : Char) (br : List Char) (hb : isDigitC b1 = true) :
    pNum (b1 :: br) = pNumBody false (b1 :: br) := by
  rw [pNum]
  rw [if_neg]
  intro hcon
  have := beq_false_of_digit b1 '-' hb (by decide)
  rw [hcon] at this
  cases this

theorem natToChars_nolz (n : Nat) :
    2 ≤ (natToChars n).length → ((natToChars n).headI == '0') = false := by
  intro h2
  rcases Nat.eq_zero_or_pos n with h0 | h1
  · subst h0
    exact absurd h2 (by decide)
  · exact (natToChars_spec n).2.2.2 h1

theorem mkDec_true (ids fds : List Char) (e10 : Int) :
    mkDec true ids fds e10 = Dec.normalize
      ⟨-((natVal ids * 10 ^ fds.length + natVal fds : Nat) : Int),
       e10 - fds.length⟩ := rfl

theorem mkDec_false (ids fds : List Char) (e10 : Int) :
    mkDec false ids fds e10 = Dec.normalize
      ⟨((natVal ids * 10 ^ fds.length + natVal fds : Nat) : Int),
       e10 - fds.length⟩ := rfl

theorem normalize_mk_eq (d : Dec) (hnorm : d.normalize = d) (a b : Int)
    (ha : a = d.man) (hb : b = d.exp) : Dec.normalize ⟨a, b⟩ = d := by
  rw [ha, hb]
  exact hnorm

theorem headI_take (l : List Char) (n : Nat) (hn : 1 ≤ n) :
    (l.take n).headI = l.headI := by
  cases l with
  | nil => simp
  | cons x xs =>
    match n, hn with
    | Nat.succ m, _ => simp

theorem pNum_of_pNumBody (ds : List Char)
    (hdig : ∀ x ∈ ds, isDigitC x = true) (hne : ds ≠ []) (tail : List Char) :
    pNum (ds ++ tail) = pNumBody false (ds ++ tail) := by
  cases ds with
  | nil => exact absurd rfl hne
  | cons d1 ds1 =>
    rw [List.cons_append, pNum_digit_head d1 _ (hdig d1 (by simp))]

theorem pNumBody_zero_frac (neg : Bool) (m : Nat) (ds : List Char) (c : Char)
    (rest : List Char) (hdig : ∀ x ∈ ds, isDigitC x = true) (hne : ds ≠ [])
    (hcd : isDigitC c = false) (hce : (c == 'e') = false)
    (hcE : (c == 'E') = false) :
    pNumBody neg ('0' :: '.' :: (List.replicate m '0' ++ (ds ++ c :: rest)))
      = some (mkDec neg ['0'] (List.replicate m '0' ++ ds) 0, c :: rest) := by
  rw [show ('0' :: '.' :: (List.replicate m '0' ++ (ds ++ c :: rest)))
      = (['0'] ++ '.' :: ((List.replicate m '0' ++ ds) ++ c :: rest))
      from by simp]
  refine pNumBody_frac neg ['0'] (List.replicate m '0' ++ ds) c rest
    (by intro x hx; simp at hx; subst hx; decide) (by simp) ?_ ?_ ?_ hcd
    hce hcE
  · intro h2
    simp at h2
  · intro x hx
    rw [List.mem_append] at hx
    rcases hx with hx | hx
    · rw [List.eq_of_mem_replicate hx]
      decide
    · exact hdig x hx
  · intro hcon
    exact hne (List.append_eq_nil.mp hcon).2

theorem pNum_printNum (d : Dec) (hnorm : d.normalize = d) (c : Char)
    (rest : List Char) (hcd : isDigitC c = false) (hcdot : (c == '.') = false)
    (hce : (c == 'e') = false) (hcE : (c == 'E') = false) :
    pNum (printNum d ++ c :: rest) = some (d, c :: rest) := by
  obtain ⟨dsval, dsdig, dsne, dshz⟩ := natToChars_spec d.man.natAbs
  have dsnolz := natToChars_nolz d.man.natAbs
  simp only [printNum]
  by_cases hexp1 : 1 ≤ d.exp
  · rw [if_pos hexp1]
    obtain ⟨esval, esdig, esne, -⟩ := natToChars_spec d.exp.toNat
    by_cases hneg : d.man < 0
    · rw [if_pos hneg]
      simp only [List.append_assoc, List.cons_append, List.nil_append]
      rw [pNum_minus]
      rw [pNumBody_exp true _ _ c rest dsdig dsne dsnolz esdig esne hcd]
      rw [mkDec_true]
      rw [normalize_mk_eq d hnorm _ _ ?_ ?_]
      · rw [dsval]
        simp only [List.length_nil, pow_zero, mul_one, natVal,
          List.foldl_nil, Nat.add_zero]
        omega
      · rw [esval]
        simp only [List.length_nil, Nat.cast_zero]
        omega
    · rw [if_neg hneg]
      simp only [List.append_assoc, List.cons_append, List.nil_append]
      rw [pNum_of_pNumBody _ dsdig dsne]
      rw [pNumBody_exp false _ _ c rest dsdig dsne dsnolz esdig esne hcd]
      rw [mkDec_false]
      rw [normalize_mk_eq d hnorm _ _ ?_ ?_]
      · rw [dsval]
        simp only [List.length_nil, pow_zero, mul_one, natVal,
          List.foldl_nil, Nat.add_zero]
        omega
      · rw [esval]
        simp only [List.length_nil, Nat.cast_zero]
        omega
  · by_cases hexp0 : d.exp = 0
    · rw [if_neg hexp1, if_pos hexp0]
      by_cases hneg : d.man < 0
      · rw [if_pos hneg]
        simp only [List.append_assoc, List.cons_append, List.nil_append]
        rw [pNum_minus]
        rw [pNumBody_int true _ c rest dsdig dsne dsnolz hcd hcdot hce hcE]
        rw [mkDec_true]
        rw [normalize_mk_eq d hnorm _ _ ?_ ?_]
        · rw [dsval]
          simp only [List.length_nil, pow_zero, mul_one, natVal,
            List.foldl_nil, Nat.add_zero]
          omega
        · simp only [List.length_nil, Nat.cast_zero]
          omega
      · rw [if_neg hneg]
        simp only [List.append_assoc, List.cons_append, List.nil_append]
        rw [pNum_of_pNumBody _ dsdig dsne]
        rw [pNumBody_int false _ c rest dsdig dsne dsnolz hcd hcdot hce hcE]
        rw [mkDec_false]
        rw [normalize_mk_eq d hnorm _ _ ?_ ?_]
        · rw [dsval]
          simp only [List.length_nil, pow_zero, mul_one, natVal,
            List.foldl_nil, Nat.add_zero]
          omega
        · simp only [List.length_nil, Nat.cast_zero]
          omega
    · rw [if_neg hexp1, if_neg hexp0]
      have hman0 : d.man ≠ 0 := by
        intro h0
        have h1 : d.normalize = ⟨0, 0⟩ := by
          rw [Dec.normalize, h0]
          rfl
        rw [hnorm] at h1
        have h2 := congrArg Dec.exp h1
        simp at h2
        omega
      have hnat1 : 1 ≤ d.man.natAbs := by omega
      have hk1 : 1 ≤ (-d.exp).toNat := by omega
      by_cases hk : (-d.exp).toNat < (natToChars d.man.natAbs).length
      · rw [if_pos hk]
        have htdig : ∀ x ∈ (natToChars d.man.natAbs).take
            ((natToChars d.man.natAbs).length - (-d.exp).toNat),
            isDigitC x = true :=
          fun x hx => dsdig x (List.mem_of_mem_take hx)
        have htlen : 1 ≤ ((natToChars d.man.natAbs).take
            ((natToChars d.man.natAbs).length - (-d.exp).toNat)).length := by
          rw [List.length_take]
          omega
        have htne : (natToChars d.man.natAbs).take
            ((natToChars d.man.natAbs).length - (-d.exp).toNat) ≠ [] := by
          intro hcon
          rw [hcon] at htlen
          simp at htlen
        have htnolz : 2 ≤ ((natToChars d.man.natAbs).take
            ((natToChars d.man.natAbs).length - (-d.exp).toNat)).length →
            (((natToChars d.man.natAbs).take
              ((natToChars d.man.natAbs).length - (-d.exp).toNat)).headI
              == '0') = false := by
          intro h2
          rw [headI_take _ _ (by omega)]
          exact dshz hnat1
        have hddig : ∀ x ∈ (natToChars d.man.natAbs).drop
            ((natToChars d.man.natAbs).length - (-d.exp).toNat),
            isDigitC x = true :=
          fun x hx => dsdig x (List.mem_of_mem_drop hx)
        have hdlen : 1 ≤ ((natToChars d.man.natAbs).drop
            ((natToChars d.man.natAbs).length - (-d.exp).toNat)).length := by
          rw [List.length_drop]
          omega
        have hdne : (natToChars d.man.natAbs).drop
            ((natToChars d.man.natAbs).length - (-d.exp).toNat) ≠ [] := by
          intro hcon
          rw [hcon] at hdlen
          simp at hdlen
        by_cases hneg : d.man < 0
        · rw [if_pos hneg]
          simp only [List.append_assoc, List.cons_append, List.nil_append]
          rw [pNum_minus]
          rw [pNumBody_frac true _ _ c rest htdig htne htnolz hddig hdne hcd
            hce hcE]
          rw [mkDec_true]
          rw [normalize_mk_eq d hnorm _ _ ?_ ?_]
          · rw [← natVal_append, List.take_append_drop, dsval]
            omega
          · rw [List.length_drop]
            have : (natToChars d.man.natAbs).length -
                ((natToChars d.man.natAbs).length - (-d.exp).toNat)
                = (-d.exp).toNat := by omega
            rw [this]
            omega
        · rw [if_neg hneg]
          simp only [List.append_assoc, List.cons_append, List.nil_append]
          rw [pNum_of_pNumBody _ htdig htne]
          rw [pNumBody_frac false _ _ c rest htdig htne htnolz hddig hdne hcd
            hce hcE]
          rw [mkDec_false]
          rw [normalize_mk_eq d hnorm _ _ ?_ ?_]
          · rw [← natVal_append, List.take_append_drop, dsval]
            omega
          · rw [List.length_drop]
            have : (natToChars d.man.natAbs).length -
                ((natToChars d.man.natAbs).length - (-d.exp).toNat)
                = (-d.exp).toNat := by omega
            rw [this]
            omega
      · rw [if_neg hk]
        by_cases hneg : d.man < 0
        · rw [if_pos hneg]
          simp only [List.append_assoc, List.cons_append, List.nil_append]
          rw [pNum_minus]
          rw [pNumBody_zero_frac true _ _ c rest dsdig dsne hcd hce hcE]
          rw [mkDec_true]
          rw [normalize_mk_eq d hnorm _ _ ?_ ?_]
          · rw [natVal_append, natVal_replicate_zero, dsval]
            simp only [show natVal ['0'] = 0 from rfl]
            omega
          · rw [List.length_append, List.length_replicate]
            omega
        · rw [if_neg hneg]
          simp only [List.append_assoc, List.cons_append, List.nil_append]
          rw [pNum_digit_head '0' _ (by decide)]
          rw [pNumBody_zero_frac false _ _ c rest dsdig dsne hcd hce hcE]
          rw [mkDec_false]
          rw [normalize_mk_eq d hnorm _ _ ?_ ?_]
          · rw [natVal_append, natVal_replicate_zero, dsval]
            simp only [show natVal ['0'] = 0 from rfl]
            omega
          · rw [List.length_append, List.length_replicate]
            omega

theorem pStr_esc_quote (r : List Char) : pStr ('\\' :: '"' :: r)
    = match pStr r with
      | some (s, r2) => some ('"' :: s, r2)
      | none => none := rfl

theorem pStr_esc_backslash (r : List Char) : pStr ('\\' :: '\\' :: r)
    = match pStr r with
      | some (s, r2) => some ('\\' :: s, r2)
      | none => none := rfl

theorem pStr_esc_u (a b : Char) (r : List Char) :
    pStr ('\\' :: 'u' :: '0' :: '0' :: a :: b :: r)
    = match hex4 '0' '0' a b with
      | none => none
      | some n =>
        if 0xD800 ≤ n ∧ n ≤ 0xDFFF then none
        else
          match pStr r with
          | some (s, r2) => some (Char.ofNat n :: s, r2)
          | none => none := rfl

theorem hexVal_hexDigit (m : Nat) (h : m < 16) :
    hexVal (hexDigit m) = some m := by
  interval_cases m <;> decide

theorem hex4_00 (c : Char) (h : c.toNat < 32) :
    hex4 '0' '0' (hexDigit (c.toNat / 16)) (hexDigit (c.toNat % 16))
      = some c.toNat := by
  rw [hex4]
  rw [hexVal_hexDigit (c.toNat / 16) (by omega),
    hexVal_hexDigit (c.toNat % 16) (by omega)]
  simp only [show hexVal '0' = some 0 from rfl]
  have : ((0 * 16 + 0) * 16 + c.toNat / 16) * 16 + c.toNat % 16 = c.toNat := by
    omega
  rw [this]

theorem pStr_lit (c : Char) (r : List Char) (h1 : (c == '"') = false)
    (h2 : (c == '\\') = false) (h3 : ¬ c.toNat < 32) :
    pStr (c :: r)
    = match pStr r with
      | some (s, r2) => some (c :: s, r2)
      | none => none := by
  rw [pStr.eq_def]
  split
  · rename_i heq
    simp at heq
  · rename_i r2 heq
    injection heq with ha hb
    rw [ha] at h1
    simp at h1
  · rename_i a b x y z heq
    injection heq with ha hb
    rw [ha] at h2
    simp at h2
  · rename_i e r2 heq
    injection heq with ha hb
    rw [ha] at h2
    simp at h2
  · rename_i c2 r2 heq
    injection heq with ha hb
    subst ha hb
    rw [if_neg (by simpa using h3)]

theorem pStr_escStr (s : List Char) (rest : List Char) :
    pStr (escStr s ++ '"' :: rest) = some (s, rest) := by
  induction s with
  | nil => rfl
  | cons c s ih =>
    rw [show escStr (c :: s) = escChar c ++ escStr s from rfl]
    rw [escChar]
    by_cases hq : c = '"'
    · subst hq
      rw [if_pos (by decide)]
      simp only [List.cons_append, List.nil_append, List.append_assoc]
      rw [pStr_esc_quote, ih]
    · rw [if_neg (by simp [hq])]
      by_cases hb : c = '\\'
      · subst hb
        rw [if_pos (by decide)]
        simp only [List.cons_append, List.nil_append, List.append_assoc]
        rw [pStr_esc_backslash, ih]
      · rw [if_neg (by simp [hb])]
        by_cases hctl : c.toNat < 32
        · rw [if_pos hctl]
          simp only [List.cons_append, List.nil_append, List.append_assoc]
          rw [pStr_esc_u, hex4_00 c hctl]
          have hns : ¬(55296 ≤ c.toNat ∧ c.toNat ≤ 57343) := by omega
          simp [ih, hns]
        · rw [if_neg hctl]
          simp only [List.cons_append, List.nil_append]
          rw [pStr_lit c _ (by simp [hq]) (by simp [hb]) hctl, ih]

theorem stop_char_facts (c : Char)
    (hc : ((c == ',') || (c == '}') || (c == ']')) = true) :
    isDigitC c = false ∧ (c == '.') = false ∧ (c == 'e') = false ∧
      (c == 'E') = false := by
  rcases (Bool.or_eq_true _ _).mp hc with h | h
  · rcases (Bool.or_eq_true _ _).mp h with h2 | h2
    · rw [eq_of_beq h2]; exact ⟨rfl, rfl, rfl, rfl⟩
    · rw [eq_of_beq h2]; exact ⟨rfl, rfl, rfl, rfl⟩
  · rw [eq_of_beq h]; exact ⟨rfl, rfl, rfl, rfl⟩

theorem ParsesTo.run (pv : List Char) (jv : Json) (h : ParsesTo pv jv)
    (c : Char) (rest : List Char)
    (hc : ((c == ',') || (c == '}') || (c == ']')) = true)
    (g : Nat) (hg : pv.length < g) :
    pVal g (pv ++ c :: rest) = some (jv, c :: rest) := by
  refine (parser_fuel g).1 (pv.length + 1) _ _ _ (h c rest hc) ?_
  have h2 : (pv ++ c :: rest).length = pv.length + (c :: rest).length :=
    List.length_append _ _
  omega

theorem parsesTo_of_exists (pv : List Char) (jv : Json)
    (h : ∀ c rest, ((c == ',') || (c == '}') || (c == ']')) = true →
      ∃ f, pVal f (pv ++ c :: rest) = some (jv, c :: rest)) :
    ParsesTo pv jv := by
  intro c rest hc
  obtain ⟨f, hf⟩ := h c rest hc
  refine (parser_fuel _).1 f _ _ _ hf ?_
  have h2 : (pv ++ c :: rest).length = pv.length + (c :: rest).length :=
    List.length_append _ _
  omega

theorem parsesTo_null : ParsesTo "null".data .null := by
  intro c rest hc
  rfl

theorem parsesTo_str (s : List Char) : ParsesTo (printJStr s) (.str s) := by
  intro c rest hc
  have hshape : printJStr s ++ c :: rest
      = '"' :: (escStr s ++ '"' :: (c :: rest)) := by
    simp [printJStr]
  rw [hshape, pVal]
  have hdw : List.dropWhile jsonWsChar ('"' :: (escStr s ++ '"' :: (c :: rest)))
      = '"' :: (escStr s ++ '"' :: (c :: rest)) := rfl
  simp only [hdw, pStr_escStr]

theorem printNum_head (d : Dec) : ∃ p1 pr, printNum d = p1 :: pr ∧
    (p1 == '-' || isDigitC p1) = true := by
  obtain ⟨-, dsdig, dsne, -⟩ := natToChars_spec d.man.natAbs
  obtain ⟨d1, ds1, hds⟩ : ∃ a l, natToChars d.man.natAbs = a :: l := by
    cases h : natToChars d.man.natAbs with
    | nil => exact absurd h dsne
    | cons a l => exact ⟨a, l, rfl⟩
  have hd1 : isDigitC d1 = true := dsdig d1 (by rw [hds]; simp)
  simp only [printNum]
  by_cases hexp1 : 1 ≤ d.exp
  · rw [if_pos hexp1]
    by_cases hneg : d.man < 0
    · rw [if_pos hneg]
      exact ⟨'-', natToChars d.man.natAbs ++ 'e' :: natToChars d.exp.toNat,
        by simp, by decide⟩
    · rw [if_neg hneg]
      exact ⟨d1, ds1 ++ 'e' :: natToChars d.exp.toNat, by simp [hds],
        by simp [hd1]⟩
  · by_cases hexp0 : d.exp = 0
    · rw [if_neg hexp1, if_pos hexp0]
      by_cases hneg : d.man < 0
      · rw [if_pos hneg]
        exact ⟨'-', natToChars d.man.natAbs, by simp, by decide⟩
      · rw [if_neg hneg]
        exact ⟨d1, ds1, by simp [hds], by simp [hd1]⟩
    · rw [if_neg hexp1, if_neg hexp0]
      by_cases hk : (-d.exp).toNat < (natToChars d.man.natAbs).length
      · rw [if_pos hk]
        by_cases hneg : d.man < 0
        · rw [if_pos hneg]
          exact ⟨'-', (natToChars d.man.natAbs).take
              ((natToChars d.man.natAbs).length - (-d.exp).toNat) ++
              '.' :: (natToChars d.man.natAbs).drop
              ((natToChars d.man.natAbs).length - (-d.exp).toNat),
            by simp, by decide⟩
        · rw [if_neg hneg]
          obtain ⟨m, hm⟩ : ∃ m, (natToChars d.man.natAbs).length -
              (-d.exp).toNat = m + 1 :=
            ⟨(natToChars d.man.natAbs).length - (-d.exp).toNat - 1, by omega⟩
          rw [hm, hds]
          exact ⟨d1, List.take m ds1 ++ '.' :: List.drop (m + 1) (d1 :: ds1),
            by simp, by simp [hd1]⟩
      · rw [if_neg hk]
        by_cases hneg : d.man < 0
        · rw [if_pos hneg]
          exact ⟨'-', '0' :: '.' ::
              (List.replicate ((-d.exp).toNat -
                (natToChars d.man.natAbs).length) '0' ++
                natToChars d.man.natAbs),
            by simp, by decide⟩
        · rw [if_neg hneg]
          exact ⟨'0', '.' ::
              (List.replicate ((-d.exp).toNat -
                (natToChars d.man.natAbs).length) '0' ++
                natToChars d.man.natAbs),
            by simp, by decide⟩

theorem digit_or_minus_not_ws (p1 : Char)
    (hp1 : (p1 == '-' || isDigitC p1) = true) : jsonWsChar p1 = false := by
  rcases (Bool.or_eq_true _ _).mp hp1 with h | h
  · rw [eq_of_beq h]; decide
  · simp only [jsonWsChar, Bool.or_eq_false_iff]
    refine ⟨⟨⟨?_, ?_⟩, ?_⟩, ?_⟩ <;> exact beq_false_of_digit _ _ h (by decide)

theorem parsesTo_num (d : Dec) (hnorm : d.normalize = d) :
    ParsesTo (printNum d) (.num d) := by
  intro c rest hc
  obtain ⟨hcd, hcdot, hce, hcE⟩ := stop_char_facts c hc
  obtain ⟨p1, pr, hpr, hp1⟩ := printNum_head d
  have hws : jsonWsChar p1 = false := digit_or_minus_not_ws p1 hp1
  have hdweq : List.dropWhile jsonWsChar (printNum d ++ c :: rest)
      = p1 :: (pr ++ c :: rest) := by
    rw [hpr, List.cons_append, List.dropWhile_cons, hws]
    simp
  rw [pVal]
  split
  all_goals rename_i heq
  all_goals rw [hdweq] at heq
  all_goals try (injection heq with h1 h2; rw [h1] at hp1; exact absurd hp1 (by decide))
  · -- number arm
    rename_i cx rx
    injection heq with h1 h2
    subst h1 h2
    rw [if_pos hp1]
    have hinput : p1 :: (pr ++ c :: rest) = printNum d ++ c :: rest := by
      rw [hpr, List.cons_append]
    rw [hinput, pNum_printNum d hnorm c rest hcd hcdot hce hcE]
  · -- nil arm
    simp at heq

theorem parsesTo_strOpt (o : Option (List Char)) :
    ParsesTo (printJStrOpt o) (jStrOptVal o) := by
  cases o with
  | none => exact parsesTo_null
  | some s => exact parsesTo_str s

theorem parsesTo_numOpt (o : Option Dec)
    (hnorm : ∀ d, o = some d → d.normalize = d) :
    ParsesTo (printJNumOpt o) (jNumOptVal o) := by
  cases o with
  | none => exact parsesTo_null
  | some d => exact parsesTo_num d (hnorm d rfl)

theorem parsesTo_txnTypeOpt (o : Option TransactionType) :
    ParsesTo (printJTxnTypeOpt o) (jTxnTypeOptVal o) := by
  cases o with
  | none => exact parsesTo_null
  | some t => exact parsesTo_str (txnTypeValue t)

theorem pMembers_single (k : List Char) (pv : List Char) (jv : Json)
    (hp : ParsesTo pv jv) (rest : List Char) :
    pMembers (pv.length + 2) (printJStr k ++ ':' :: (pv ++ '}' :: rest))
      = some ([(k, jv)], rest) := by
  have hshape : printJStr k ++ ':' :: (pv ++ '}' :: rest)
      = '"' :: (escStr k ++ '"' :: (':' :: (pv ++ '}' :: rest))) := by
    simp [printJStr]
  rw [hshape, pMembers]
  have hdw : List.dropWhile jsonWsChar
      ('"' :: (escStr k ++ '"' :: (':' :: (pv ++ '}' :: rest))))
      = '"' :: (escStr k ++ '"' :: (':' :: (pv ++ '}' :: rest))) := rfl
  simp only [hdw, pStr_escStr]
  have hdw2 : List.dropWhile jsonWsChar (':' :: (pv ++ '}' :: rest))
      = ':' :: (pv ++ '}' :: rest) := rfl
  simp only [hdw2]
  have hv := hp '}' rest (by decide)
  simp only [hv]
  have hdw3 : List.dropWhile jsonWsChar ('}' :: rest) = '}' :: rest := rfl
  simp only [hdw3]

theorem pMembers_cons (k pv : List Char) (jv : Json) (hp : ParsesTo pv jv)
    (ms : List Char) (kvs : List (List Char × Json)) (rest : List Char)
    (f0 : Nat) (hm : pMembers f0 ms = some (kvs, rest)) :
    pMembers (pv.length + ms.length + 2)
      (printJStr k ++ ':' :: (pv ++ ',' :: ms))
      = some ((k, jv) :: kvs, rest) := by
  have hshape : printJStr k ++ ':' :: (pv ++ ',' :: ms)
      = '"' :: (escStr k ++ '"' :: (':' :: (pv ++ ',' :: ms))) := by
    simp [printJStr]
  rw [hshape, pMembers]
  have hdw : List.dropWhile jsonWsChar
      ('"' :: (escStr k ++ '"' :: (':' :: (pv ++ ',' :: ms))))
      = '"' :: (escStr k ++ '"' :: (':' :: (pv ++ ',' :: ms))) := rfl
  simp only [hdw, pStr_escStr]
  have hdw2 : List.dropWhile jsonWsChar (':' :: (pv ++ ',' :: ms))
      = ':' :: (pv ++ ',' :: ms) := rfl
  simp only [hdw2]
  have hv := ParsesTo.run pv jv hp ',' ms (by decide)
    (pv.length + ms.length + 1) (by omega)
  simp only [hv]
  have hdw3 : List.dropWhile jsonWsChar (',' :: ms) = ',' :: ms := rfl
  simp only [hdw3]
  have hsuf : rest.length ≤ ms.length :=
    ((parser_suffix f0).2.1 _ _ _ hm).length_le
  have hm2 : pMembers (pv.length + ms.length + 1) ms = some (kvs, rest) :=
    (parser_fuel _).2.1 f0 _ _ _ hm (by omega)
  simp only [hm2]

theorem pMembers_print :
    ∀ (items : List (List Char × List Char × Json)),
      (∀ x ∈ items, ParsesTo x.2.1 x.2.2) → items ≠ [] → ∀ rest,
      ∃ f, pMembers f
        (printMembers (items.map fun x => (x.1, x.2.1)) ++ '}' :: rest)
        = some (items.map fun x => (x.1, x.2.2), rest) := by
  intro items
  induction items with
  | nil => intro _ hne; exact absurd rfl hne
  | cons x items ih =>
    intro hall hne rest
    cases items with
    | nil =>
      refine ⟨x.2.1.length + 2, ?_⟩
      have hshape : printMembers ([x].map fun x => (x.1, x.2.1)) ++ '}' :: rest
          = printJStr x.1 ++ ':' :: (x.2.1 ++ '}' :: rest) := by
        simp [printMembers]
      rw [hshape]
      exact pMembers_single x.1 x.2.1 x.2.2 (hall x (by simp)) rest
    | cons y items2 =>
      obtain ⟨f0, hm⟩ := ih (fun z hz => hall z (by simp [hz])) (by simp) rest
      refine ⟨x.2.1.length +
        (printMembers ((y :: items2).map fun x => (x.1, x.2.1))
          ++ '}' :: rest).length + 2, ?_⟩
      have hshape : printMembers ((x :: y :: items2).map fun x => (x.1, x.2.1))
            ++ '}' :: rest
          = printJStr x.1 ++ ':' :: (x.2.1 ++ ',' ::
            (printMembers ((y :: items2).map fun x => (x.1, x.2.1))
              ++ '}' :: rest)) := by
        simp [printMembers]
      rw [hshape]
      exact pMembers_cons x.1 x.2.1 x.2.2 (hall x (by simp)) _ _ rest f0 hm

theorem pElems_single (pv : List Char) (jv : Json) (hp : ParsesTo pv jv)
    (rest : List Char) :
    pElems (pv.length + 2) (pv ++ ']' :: rest) = some ([jv], rest) := by
  rw [pElems]
  have hv := ParsesTo.run pv jv hp ']' rest (by decide) (pv.length + 1)
    (by omega)
  simp only [hv]
  have hdw : List.dropWhile jsonWsChar (']' :: rest) = ']' :: rest := rfl
  simp only [hdw]

theorem pElems_cons (pv : List Char) (jv : Json) (hp : ParsesTo pv jv)
    (ms : List Char) (vs : List Json) (rest : List Char) (f0 : Nat)
    (hm : pElems f0 ms = some (vs, rest)) :
    pElems (pv.length + ms.length + 2) (pv ++ ',' :: ms)
      = some (jv :: vs, rest) := by
  rw [pElems]
  have hv := ParsesTo.run pv jv hp ',' ms (by decide)
    (pv.length + ms.length + 1) (by omega)
  simp only [hv]
  have hdw : List.dropWhile jsonWsChar (',' :: ms) = ',' :: ms := rfl
  simp only [hdw]
  have hsuf : rest.length ≤ ms.length :=
    ((parser_suffix f0).2.2 _ _ _ hm).length_le
  have hm2 : pElems (pv.length + ms.length + 1) ms = some (vs, rest) :=
    (parser_fuel _).2.2 f0 _ _ _ hm (by omega)
  simp only [hm2]

theorem pElems_print :
    ∀ (elems : List (List Char × Json)),
      (∀ x ∈ elems, ParsesTo x.1 x.2) → elems ≠ [] → ∀ rest,
      ∃ f, pElems f (joinCommaChars (elems.map (fun x => x.1)) ++ ']' :: rest)
        = some (elems.map (fun x => x.2), rest) := by
  intro elems
  induction elems with
  | nil => intro _ hne; exact absurd rfl hne
  | cons x elems ih =>
    intro hall hne rest
    cases elems with
    | nil =>
      refine ⟨x.1.length + 2, ?_⟩
      have hshape : joinCommaChars ([x].map fun x => x.1) ++ ']' :: rest
          = x.1 ++ ']' :: rest := by
        simp [joinCommaChars]
      rw [hshape]
      exact pElems_single x.1 x.2 (hall x (by simp)) rest
    | cons y elems2 =>
      obtain ⟨f0, hm⟩ := ih (fun z hz => hall z (by simp [hz])) (by simp) rest
      refine ⟨x.1.length +
        (joinCommaChars ((y :: elems2).map fun x => x.1)
          ++ ']' :: rest).length + 2, ?_⟩
      have hshape : joinCommaChars ((x :: y :: elems2).map fun x => x.1)
            ++ ']' :: rest
          = x.1 ++ ',' ::
            (joinCommaChars ((y :: elems2).map fun x => x.1) ++ ']' :: rest) := by
        simp [joinCommaChars]
      rw [hshape]
      exact pElems_cons x.1 x.2 (hall x (by simp)) _ _ rest f0 hm

theorem pVal_obj_intro (tail : List Char) (kvs : List (List Char × Json))
    (rest : List Char) (f0 : Nat)
    (hm : pMembers f0 ('"' :: tail) = some (kvs, rest)) :
    pVal (f0 + 1) ('{' :: '"' :: tail) = some (.obj kvs, rest) := by
  rw [pVal]
  have hdw : List.dropWhile jsonWsChar ('{' :: '"' :: tail)
      = '{' :: '"' :: tail := rfl
  simp only [hdw]
  have hdw2 : List.dropWhile jsonWsChar ('"' :: tail) = '"' :: tail := rfl
  simp only [hdw2, hm]
  rfl

theorem pVal_arr_intro (tail : List Char) (vs : List Json)
    (rest : List Char) (f0 : Nat)
    (hm : pElems f0 ('{' :: tail) = some (vs, rest)) :
    pVal (f0 + 1) ('[' :: '{' :: tail) = some (.arr vs, rest) := by
  rw [pVal]
  have hdw : List.dropWhile jsonWsChar ('[' :: '{' :: tail)
      = '[' :: '{' :: tail := rfl
  simp only [hdw]
  have hdw2 : List.dropWhile jsonWsChar ('{' :: tail) = '{' :: tail := rfl
  simp only [hdw2, hm]
  rfl

theorem parsesTo_printObjOf (items : List (List Char × List Char × Json))
    (hall : ∀ x ∈ items, ParsesTo x.2.1 x.2.2) (hne : items ≠ []) :
    ParsesTo (printObjOf (items.map fun x => (x.1, x.2.1)))
      (.obj (items.map fun x => (x.1, x.2.2))) := by
  apply parsesTo_of_exists
  intro c rest hc
  obtain ⟨f0, hm⟩ := pMembers_print items hall hne (c :: rest)
  obtain ⟨tail, htail⟩ : ∃ tail,
      printMembers (items.map fun x => (x.1, x.2.1)) = '"' :: tail := by
    cases items with
    | nil => exact absurd rfl hne
    | cons x items =>
      cases items with
      | nil =>
        exact ⟨escStr x.1 ++ '"' :: ':' :: x.2.1,
          by simp [printMembers, printJStr]⟩
      | cons y items2 =>
        exact ⟨escStr x.1 ++ '"' :: ':' :: (x.2.1 ++ ',' ::
            printMembers ((y.1, y.2.1) :: items2.map fun x => (x.1, x.2.1))),
          by simp [printMembers, printJStr]⟩
  refine ⟨f0 + 1, ?_⟩
  have hshape : printObjOf (items.map fun x => (x.1, x.2.1)) ++ c :: rest
      = '{' :: '"' :: (tail ++ '}' :: (c :: rest)) := by
    simp [printObjOf, htail]
  rw [hshape]
  refine pVal_obj_intro _ _ _ f0 ?_
  rw [htail] at hm
  simpa using hm

theorem parsesTo_txn (t : Transaction)
    (ha : ∀ d, t.amount = some d → d.normalize = d)
    (hb : ∀ d, t.balance = some d → d.normalize = d) :
    ParsesTo (printTxn t) (txnToJson t) := by
  have h := parsesTo_printObjOf
    [("date".data, printJStrOpt t.date, jStrOptVal t.date),
     ("description".data, printJStrOpt t.description,
       jStrOptVal t.description),
     ("amount".data, printJNumOpt t.amount, jNumOptVal t.amount),
     ("balance".data, printJNumOpt t.balance, jNumOptVal t.balance),
     ("transaction_type".data, printJTxnTypeOpt t.transaction_type,
       jTxnTypeOptVal t.transaction_type),
     ("reference".data, printJStrOpt t.reference, jStrOptVal t.reference)]
    ?_ (by simp)
  · exact h
  · intro x hx
    simp only [List.mem_cons, List.not_mem_nil, or_false] at hx
    rcases hx with hx | hx | hx | hx | hx | hx <;> subst hx
    · exact parsesTo_strOpt _
    · exact parsesTo_strOpt _
    · exact parsesTo_numOpt _ ha
    · exact parsesTo_numOpt _ hb
    · exact parsesTo_txnTypeOpt _
    · exact parsesTo_strOpt _

theorem parsesTo_arr_empty : ParsesTo (printArrOf []) (.arr []) := by
  intro c rest hc
  rfl

theorem parsesTo_txns (l : List Transaction)
    (hn : ∀ t ∈ l, (∀ d, t.amount = some d → d.normalize = d) ∧
      (∀ d, t.balance = some d → d.normalize = d)) :
    ParsesTo (printArrOf (l.map printTxn)) (.arr (l.map txnToJson)) := by
  cases l with
  | nil => exact parsesTo_arr_empty
  | cons t ts =>
    apply parsesTo_of_exists
    intro c rest hc
    have hall : ∀ x ∈ (t :: ts).map fun x => (printTxn x, txnToJson x),
        ParsesTo x.1 x.2 := by
      intro x hx
      simp only [List.mem_map] at hx
      obtain ⟨t2, ht2, rfl⟩ := hx
      exact parsesTo_txn t2 (hn t2 ht2).1 (hn t2 ht2).2
    obtain ⟨f0, hm⟩ := pElems_print
      ((t :: ts).map fun x => (printTxn x, txnToJson x))
      hall (by simp) (c :: rest)
    have hmap1 : (((t :: ts).map fun x => (printTxn x, txnToJson x)).map
        fun x => x.1) = (t :: ts).map printTxn := by
      simp
    have hmap2 : (((t :: ts).map fun x => (printTxn x, txnToJson x)).map
        fun x => x.2) = (t :: ts).map txnToJson := by
      simp
    rw [hmap1, hmap2] at hm
    simp only [List.map_cons] at hm
    obtain ⟨tl, htl⟩ : ∃ tl,
        joinCommaChars (printTxn t :: List.map printTxn ts) = '{' :: tl := by
      cases ts with
      | nil =>
        exact ⟨printMembers (txnItems t) ++ ['}'],
          by simp [joinCommaChars, printTxn, printObjOf]⟩
      | cons t2 ts2 =>
        exact ⟨printMembers (txnItems t) ++ '}' :: ',' ::
            joinCommaChars (List.map printTxn (t2 :: ts2)),
          by simp [joinCommaChars, printTxn, printObjOf]⟩
    refine ⟨f0 + 1, ?_⟩
    have hshape : printArrOf ((t :: ts).map printTxn) ++ c :: rest
        = '[' :: '{' :: (tl ++ ']' :: (c :: rest)) := by
      simp [printArrOf, htl]
    rw [hshape]
    refine pVal_arr_intro _ _ _ f0 ?_
    rw [htl] at hm
    simpa using hm

theorem printMembers_head (items : List (List Char × List Char × Json))
    (hne : items ≠ []) :
    ∃ tail, printMembers (items.map fun x => (x.1, x.2.1)) = '"' :: tail := by
  cases items with
  | nil => exact absurd rfl hne
  | cons x items =>
    cases items with
    | nil =>
      exact ⟨escStr x.1 ++ '"' :: ':' :: x.2.1,
        by simp [printMembers, printJStr]⟩
    | cons y items2 =>
      exact ⟨escStr x.1 ++ '"' :: ':' :: (x.2.1 ++ ',' ::
          printMembers ((y.1, y.2.1) :: items2.map fun x => (x.1, x.2.1))),
        by simp [printMembers, printJStr]⟩

theorem printObj_parse (items : List (List Char × List Char × Json))
    (hall : ∀ x ∈ items, ParsesTo x.2.1 x.2.2) (hne : items ≠ []) :
    Json.parse (printObjOf (items.map fun x => (x.1, x.2.1)))
      = some (.obj (items.map fun x => (x.1, x.2.2))) := by
  obtain ⟨f0, hm⟩ := pMembers_print items hall hne []
  obtain ⟨tail, htail⟩ := printMembers_head items hne
  have hshape : printObjOf (items.map fun x => (x.1, x.2.1))
      = '{' :: '"' :: (tail ++ '}' :: []) := by
    simp [printObjOf, htail]
  rw [hshape]
  refine Json.parse_of_pVal _ _ (f0 + 1) ?_
  refine pVal_obj_intro _ _ _ f0 ?_
  rw [htail] at hm
  simpa using hm

theorem bank_json_roundtrip (r : BankStatementSchema)
    (hob : ∀ d, r.opening_balance = some d → d.normalize = d)
    (hcb : ∀ d, r.closing_balance = some d → d.normalize = d)
    (htc : ∀ d, r.total_credits = some d → d.normalize = d)
    (htd : ∀ d, r.total_debits = some d → d.normalize = d)
    (htx : ∀ t ∈ r.transactions,
      (∀ d, t.amount = some d → d.normalize = d) ∧
      (∀ d, t.balance = some d → d.normalize = d)) :
    Json.parse (model_dump_json_bank r) = some (bankToJson r) := by
  have h := printObj_parse
    [("document_type".data, printJStr (docTypeValue r.document_type),
       .str (docTypeValue r.document_type)),
     ("account_holder".data, printJStrOpt r.account_holder,
       jStrOptVal r.account_holder),
     ("account_number".data, printJStrOpt r.account_number,
       jStrOptVal r.account_number),
     ("bank_name".data, printJStrOpt r.bank_name, jStrOptVal r.bank_name),
     ("statement_period".data, printJStrOpt r.statement_period,
       jStrOptVal r.statement_period),
     ("opening_balance".data, printJNumOpt r.opening_balance,
       jNumOptVal r.opening_balance),
     ("closing_balance".data, printJNumOpt r.closing_balance,
       jNumOptVal r.closing_balance),
     ("total_credits".data, printJNumOpt r.total_credits,
       jNumOptVal r.total_credits),
     ("total_debits".data, printJNumOpt r.total_debits,
       jNumOptVal r.total_debits),
     ("transactions".data, printArrOf (r.transactions.map printTxn),
       .arr (r.transactions.map txnToJson)),
     ("address".data, printJStrOpt r.address, jStrOptVal r.address),
     ("phone".data, printJStrOpt r.phone, jStrOptVal r.phone),
     ("email".data, printJStrOpt r.email, jStrOptVal r.email)]
    ?_ (by simp)
  · exact h
  · intro x hx
    simp only [List.mem_cons, List.not_mem_nil, or_false] at hx
    rcases hx with hx | hx | hx | hx | hx | hx | hx | hx | hx | hx | hx | hx
      | hx <;> subst hx
    · exact parsesTo_str _
    · exact parsesTo_strOpt _
    · exact parsesTo_strOpt _
    · exact parsesTo_strOpt _
    · exact parsesTo_strOpt _
    · exact parsesTo_numOpt _ hob
    · exact parsesTo_numOpt _ hcb
    · exact parsesTo_numOpt _ htc
    · exact parsesTo_numOpt _ htd
    · exact parsesTo_txns _ htx
    · exact parsesTo_strOpt _
    · exact parsesTo_strOpt _
    · exact parsesTo_strOpt _

theorem docTypeValue_of_fromValue (s : List Char) (dt : DocumentType)
    (h : docTypeFromValue s = some dt) : docTypeValue dt = s := by
  rw [docTypeFromValue] at h
  repeat' split at h
  all_goals simp_all
  all_goals (subst h; rfl)

theorem txnTypeValue_of_fromValue (s : List Char) (tt : TransactionType)
    (h : txnTypeFromValue s = some tt) : txnTypeValue tt = s := by
  rw [txnTypeFromValue] at h
  repeat' split at h
  all_goals simp_all
  all_goals (subst h; rfl)

theorem okStrKey_spec (kvs : List (List Char × Json)) (k : List Char)
    (h : okStrKey kvs k = true) : ∃ s, jGet kvs k = some (.str s) := by
  rw [okStrKey] at h
  split at h
  · rename_i s heq
    exact ⟨s, heq⟩
  · cases h

theorem okNumKey_spec (kvs : List (List Char × Json)) (k : List Char)
    (h : okNumKey kvs k = true) : ∃ d, jGet kvs k = some (.num d) := by
  rw [okNumKey] at h
  split at h
  · rename_i d heq
    exact ⟨d, heq⟩
  · cases h

theorem optionBind_eq_some {A B : Type} (x : Option A) (f : A → Option B)
    (b : B) (h : x.bind f = some b) : ∃ a, x = some a ∧ f a = some b := by
  cases x with
  | none => simp [Option.bind] at h
  | some a => exact ⟨a, rfl, by simpa [Option.bind] using h⟩

theorem vTxn_fields (kvs : List (List Char × Json)) (t : Transaction)
    (hv : vTxn (.obj kvs) = some t) :
    vStrOpt (jGet kvs "date".data) = some t.date ∧
    vStrOpt (jGet kvs "description".data) = some t.description ∧
    vFloatOpt (jGet kvs "amount".data) = some t.amount ∧
    vFloatOpt (jGet kvs "balance".data) = some t.balance ∧
    vTxnTypeOpt (jGet kvs "transaction_type".data)
      = some t.transaction_type ∧
    vStrOpt (jGet kvs "reference".data) = some t.reference := by
  rw [vTxn] at hv
  obtain ⟨da, hda, hv⟩ := optionBind_eq_some _ _ _ hv
  obtain ⟨de, hde, hv⟩ := optionBind_eq_some _ _ _ hv
  obtain ⟨am, ham, hv⟩ := optionBind_eq_some _ _ _ hv
  obtain ⟨ba, hba, hv⟩ := optionBind_eq_some _ _ _ hv
  obtain ⟨tt, htt, hv⟩ := optionBind_eq_some _ _ _ hv
  obtain ⟨re, hre, hv⟩ := optionBind_eq_some _ _ _ hv
  injection hv with hv2
  subst hv2
  exact ⟨hda, hde, ham, hba, htt, hre⟩

theorem vBank_fields (kvs : List (List Char × Json)) (r : BankStatementSchema)
    (hv : vBank (.obj kvs) = some r) :
    vDocType .bank_statement (jGet kvs "document_type".data)
      = some r.document_type ∧
    vStrOpt (jGet kvs "account_holder".data) = some r.account_holder ∧
    vStrOpt (jGet kvs "account_number".data) = some r.account_number ∧
    vStrOpt (jGet kvs "bank_name".data) = some r.bank_name ∧
    vStrOpt (jGet kvs "statement_period".data) = some r.statement_period ∧
    vFloatOpt (jGet kvs "opening_balance".data) = some r.opening_balance ∧
    vFloatOpt (jGet kvs "closing_balance".data) = some r.closing_balance ∧
    vFloatOpt (jGet kvs "total_credits".data) = some r.total_credits ∧
    vFloatOpt (jGet kvs "total_debits".data) = some r.total_debits ∧
    vTxnList (jGet kvs "transactions".data) = some r.transactions ∧
    vStrOpt (jGet kvs "address".data) = some r.address ∧
    vStrOpt (jGet kvs "phone".data) = some r.phone ∧
    vStrOpt (jGet kvs "email".data) = some r.email := by
  rw [vBank] at hv
  obtain ⟨dt, hdt, hv⟩ := optionBind_eq_some _ _ _ hv
  obtain ⟨ah, hah, hv⟩ := optionBind_eq_some _ _ _ hv
  obtain ⟨an, han, hv⟩ := optionBind_eq_some _ _ _ hv
  obtain ⟨bn, hbn, hv⟩ := optionBind_eq_some _ _ _ hv
  obtain ⟨sp, hsp, hv⟩ := optionBind_eq_some _ _ _ hv
  obtain ⟨ob, hob, hv⟩ := optionBind_eq_some _ _ _ hv
  obtain ⟨cb, hcb, hv⟩ := optionBind_eq_some _ _ _ hv
  obtain ⟨tc, htc, hv⟩ := optionBind_eq_some _ _ _ hv
  obtain ⟨td, htd, hv⟩ := optionBind_eq_some _ _ _ hv
  obtain ⟨tx, htx, hv⟩ := optionBind_eq_some _ _ _ hv
  obtain ⟨ad, had, hv⟩ := optionBind_eq_some _ _ _ hv
  obtain ⟨ph, hph, hv⟩ := optionBind_eq_some _ _ _ hv
  obtain ⟨em, hem, hv⟩ := optionBind_eq_some _ _ _ hv
  injection hv with hv2
  subst hv2
  exact ⟨hdt, hah, han, hbn, hsp, hob, hcb, htc, htd, htx, had, hph, hem⟩

theorem txnToJson_fields (t : Transaction) : ∃ l, txnToJson t = .obj l ∧
    jGet l "date".data = some (jStrOptVal t.date) ∧
    jGet l "description".data = some (jStrOptVal t.description) ∧
    jGet l "amount".data = some (jNumOptVal t.amount) ∧
    jGet l "balance".data = some (jNumOptVal t.balance) ∧
    jGet l "transaction_type".data
      = some (jTxnTypeOptVal t.transaction_type) ∧
    jGet l "reference".data = some (jStrOptVal t.reference) :=
  ⟨_, rfl, rfl, rfl, rfl, rfl, rfl, rfl⟩

theorem bankToJson_fields (r : BankStatementSchema) : ∃ l,
    bankToJson r = .obj l ∧
    jGet l "document_type".data
      = some (.str (docTypeValue r.document_type)) ∧
    jGet l "account_holder".data = some (jStrOptVal r.account_holder) ∧
    jGet l "account_number".data = some (jStrOptVal r.account_number) ∧
    jGet l "bank_name".data = some (jStrOptVal r.bank_name) ∧
    jGet l "statement_period".data = some (jStrOptVal r.statement_period) ∧
    jGet l "opening_balance".data = some (jNumOptVal r.opening_balance) ∧
    jGet l "closing_balance".data = some (jNumOptVal r.closing_balance) ∧
    jGet l "total_credits".data = some (jNumOptVal r.total_credits) ∧
    jGet l "total_debits".data = some (jNumOptVal r.total_debits) ∧
    jGet l "transactions".data
      = some (.arr (r.transactions.map txnToJson)) ∧
    jGet l "address".data = some (jStrOptVal r.address) ∧
    jGet l "phone".data = some (jStrOptVal r.phone) ∧
    jGet l "email".data = some (jStrOptVal r.email) :=
  ⟨_, rfl, rfl, rfl, rfl, rfl, rfl, rfl, rfl, rfl, rfl, rfl, rfl, rfl, rfl⟩

theorem txn_match_of_vTxn (tkvs : List (List Char × Json)) (t : Transaction)
    (hw : wtTxn (.obj tkvs) = true) (hv : vTxn (.obj tkvs) = some t) :
    txnMatch (.obj tkvs) (txnToJson t) = true ∧
    (∀ d, t.amount = some d → d.normalize = d) ∧
    (∀ d, t.balance = some d → d.normalize = d) := by
  obtain ⟨hda, hde, ham, hba, htt, hre⟩ := vTxn_fields tkvs t hv
  rw [wtTxn] at hw
  simp only [Bool.and_eq_true] at hw
  obtain ⟨⟨⟨⟨⟨hw1, hw2⟩, hw3⟩, hw4⟩, hw5⟩, hw6⟩ := hw
  obtain ⟨sd, hsd⟩ := okStrKey_spec _ _ hw1
  obtain ⟨sde, hsde⟩ := okStrKey_spec _ _ hw2
  obtain ⟨dam, hdam⟩ := okNumKey_spec _ _ hw3
  obtain ⟨dba, hdba⟩ := okNumKey_spec _ _ hw4
  obtain ⟨sre, hsre⟩ := okStrKey_spec _ _ hw6
  rw [hsd] at hda
  injection hda with hdate
  rw [hsde] at hde
  injection hde with hdesc
  rw [hdam] at ham
  injection ham with hamount
  rw [hdba] at hba
  injection hba with hbalance
  rw [hsre] at hre
  injection hre with href
  split at hw5
  case h_2 => cases hw5
  case h_1 st hst =>
    obtain ⟨tt0, htt0⟩ := Option.isSome_iff_exists.mp hw5
    rw [hst, vTxnTypeOpt] at htt
    rw [htt0] at htt
    injection htt with htype
    obtain ⟨tl, htj, hj1, hj2, hj3, hj4, hj5, hj6⟩ := txnToJson_fields t
    refine ⟨?_, ?_, ?_⟩
    · rw [htj, txnMatch]
      simp only [Bool.and_eq_true]
      refine ⟨⟨⟨⟨⟨?_, ?_⟩, ?_⟩, ?_⟩, ?_⟩, ?_⟩
      · rw [strKeyMatch, hsd, hj1, ← hdate]
        simp [jStrOptVal]
      · rw [strKeyMatch, hsde, hj2, ← hdesc]
        simp [jStrOptVal]
      · rw [numKeyMatch, hdam, hj3, ← hamount]
        simp [jNumOptVal, Dec.sameVal_normalize]
      · rw [numKeyMatch, hdba, hj4, ← hbalance]
        simp [jNumOptVal, Dec.sameVal_normalize]
      · rw [strKeyMatch, hst, hj5, ← htype]
        rw [show jTxnTypeOptVal (some tt0) = .str (txnTypeValue tt0) from rfl]
        rw [txnTypeValue_of_fromValue st tt0 htt0]
        simp
      · rw [strKeyMatch, hsre, hj6, ← href]
        simp [jStrOptVal]
    · intro d hd
      rw [← hamount] at hd
      injection hd with hd2
      rw [← hd2]
      exact Dec.normalize_idem dam
    · intro d hd
      rw [← hbalance] at hd
      injection hd with hd2
      rw [← hd2]
      exact Dec.normalize_idem dba

theorem txns_match_of_vTxns : ∀ (l : List Json) (ts : List Transaction),
    wtTxns l = true → vTxns l = some ts →
    txnsMatch l (ts.map txnToJson) = true ∧
    ∀ t ∈ ts, (∀ d, t.amount = some d → d.normalize = d) ∧
      (∀ d, t.balance = some d → d.normalize = d) := by
  intro l
  induction l with
  | nil =>
    intro ts hw hv
    rw [vTxns] at hv
    injection hv with hv2
    subst hv2
    exact ⟨rfl, by simp⟩
  | cons j l ih =>
    intro ts hw hv
    rw [wtTxns] at hw
    simp only [Bool.and_eq_true] at hw
    obtain ⟨hwj, hwl⟩ := hw
    obtain ⟨tkvs, rfl⟩ : ∃ tkvs, j = Json.obj tkvs := by
      cases j
      case obj tkvs => exact ⟨tkvs, rfl⟩
      all_goals simp [wtTxn] at hwj
    rw [vTxns] at hv
    split at hv
    · rename_i t ts1 hvt hvts
      injection hv with hv2
      subst hv2
      obtain ⟨tm, hna, hnb⟩ := txn_match_of_vTxn tkvs t hwj hvt
      obtain ⟨tsm, htsn⟩ := ih ts1 hwl hvts
      refine ⟨?_, ?_⟩
      · rw [List.map_cons, txnsMatch, tm, tsm]
        rfl
      · intro t2 ht2
        rcases List.mem_cons.mp ht2 with ht2 | ht2
        · subst ht2
          exact ⟨hna, hnb⟩
        · exact htsn t2 ht2
    · cases hv

theorem bank_match_of_vBank (kvs : List (List Char × Json))
    (r : BankStatementSchema)
    (hw : wtBank (.obj kvs) = true) (hv : vBank (.obj kvs) = some r) :
    bankFieldsMatch (.obj kvs) (bankToJson r) = true ∧
    (∀ d, r.opening_balance = some d → d.normalize = d) ∧
    (∀ d, r.closing_balance = some d → d.normalize = d) ∧
    (∀ d, r.total_credits = some d → d.normalize = d) ∧
    (∀ d, r.total_debits = some d → d.normalize = d) ∧
    (∀ t ∈ r.transactions,
      (∀ d, t.amount = some d → d.normalize = d) ∧
      (∀ d, t.balance = some d → d.normalize = d)) := by
  obtain ⟨hdt, hah, han, hbn, hsp, hob, hcb, htc, htd, htx, had, hph, hem⟩ :=
    vBank_fields kvs r hv
  rw [wtBank] at hw
  simp only [Bool.and_eq_true] at hw
  obtain ⟨⟨⟨⟨⟨⟨⟨⟨⟨⟨⟨⟨w1, w2⟩, w3⟩, w4⟩, w5⟩, w6⟩, w7⟩, w8⟩, w9⟩, w10⟩,
    w11⟩, w12⟩, w13⟩ := hw
  obtain ⟨sah, hsah⟩ := okStrKey_spec _ _ w2
  obtain ⟨san, hsan⟩ := okStrKey_spec _ _ w3
  obtain ⟨sbn, hsbn⟩ := okStrKey_spec _ _ w4
  obtain ⟨ssp, hssp⟩ := okStrKey_spec _ _ w5
  obtain ⟨dob, hdob⟩ := okNumKey_spec _ _ w6
  obtain ⟨dcb, hdcb⟩ := okNumKey_spec _ _ w7
  obtain ⟨dtc, hdtc⟩ := okNumKey_spec _ _ w8
  obtain ⟨dtd, hdtd⟩ := okNumKey_spec _ _ w9
  obtain ⟨sad, hsad⟩ := okStrKey_spec _ _ w11
  obtain ⟨sph, hsph⟩ := okStrKey_spec _ _ w12
  obtain ⟨sem, hsem⟩ := okStrKey_spec _ _ w13
  rw [hsah] at hah
  injection hah with hah2
  rw [hsan] at han
  injection han with han2
  rw [hsbn] at hbn
  injection hbn with hbn2
  rw [hssp] at hsp
  injection hsp with hsp2
  rw [hdob] at hob
  injection hob with hob2
  rw [hdcb] at hcb
  injection hcb with hcb2
  rw [hdtc] at htc
  injection htc with htc2
  rw [hdtd] at htd
  injection htd with htd2
  rw [hsad] at had
  injection had with had2
  rw [hsph] at hph
  injection hph with hph2
  rw [hsem] at hem
  injection hem with hem2
  split at w1
  case h_2 => cases w1
  case h_1 sdt hsdt =>
    rw [hsdt] at hdt
    have hdt2 : docTypeFromValue sdt = some r.document_type := hdt
    have hdv : docTypeValue r.document_type = sdt :=
      docTypeValue_of_fromValue sdt r.document_type hdt2
    split at w10
    case h_2 => cases w10
    case h_1 la hla =>
      rw [hla] at htx
      have htx2 : vTxns la = some r.transactions := htx
      obtain ⟨tsm, htsn⟩ := txns_match_of_vTxns la r.transactions w10 htx2
      obtain ⟨bl, hbj, b1, b2, b3, b4, b5, b6, b7, b8, b9, b10, b11, b12,
        b13⟩ := bankToJson_fields r
      refine ⟨?_, ?_, ?_, ?_, ?_, ?_⟩
      · rw [hbj, bankFieldsMatch]
        simp only [Bool.and_eq_true]
        refine ⟨⟨⟨⟨⟨⟨⟨⟨⟨⟨⟨⟨?_, ?_⟩, ?_⟩, ?_⟩, ?_⟩, ?_⟩, ?_⟩, ?_⟩, ?_⟩,
          ?_⟩, ?_⟩, ?_⟩, ?_⟩
        · rw [strKeyMatch, hsdt, b1, hdv]
          simp
        · rw [strKeyMatch, hsah, b2, ← hah2]
          simp [jStrOptVal]
        · rw [strKeyMatch, hsan, b3, ← han2]
          simp [jStrOptVal]
        · rw [strKeyMatch, hsbn, b4, ← hbn2]
          simp [jStrOptVal]
        · rw [strKeyMatch, hssp, b5, ← hsp2]
          simp [jStrOptVal]
        · rw [numKeyMatch, hdob, b6, ← hob2]
          simp [jNumOptVal, Dec.sameVal_normalize]
        · rw [numKeyMatch, hdcb, b7, ← hcb2]
          simp [jNumOptVal, Dec.sameVal_normalize]
        · rw [numKeyMatch, hdtc, b8, ← htc2]
          simp [jNumOptVal, Dec.sameVal_normalize]
        · rw [numKeyMatch, hdtd, b9, ← htd2]
          simp [jNumOptVal, Dec.sameVal_normalize]
        · rw [hla, b10]
          exact tsm
        · rw [strKeyMatch, hsad, b11, ← had2]
          simp [jStrOptVal]
        · rw [strKeyMatch, hsph, b12, ← hph2]
          simp [jStrOptVal]
        · rw [strKeyMatch, hsem, b13, ← hem2]
          simp [jStrOptVal]
      · intro d hd
        rw [← hob2] at hd
        injection hd with hd2
        rw [← hd2]
        exact Dec.normalize_idem dob
      · intro d hd
        rw [← hcb2] at hd
        injection hd with hd2
        rw [← hd2]
        exact Dec.normalize_idem dcb
      · intro d hd
        rw [← htc2] at hd
        injection hd with hd2
        rw [← hd2]
        exact Dec.normalize_idem dtc
      · intro d hd
        rw [← htd2] at hd
        injection hd with hd2
        rw [← hd2]
        exact Dec.normalize_idem dtd
      · exact htsn

/-- C6: serialization round-trip. For every response text whose stripped body
is a JSON object that matches `BankStatementSchema` (each declared field
present with a value of its declared type, i.e. all optional fields
populated, per `wtBank`) and validates to the record `r`, rendering the
parsed structured result with output format `"json"` succeeds, the rendered
text re-parses as JSON, and the re-parsed object carries the same field
values as the original object: equal strings at the text fields, numerically
equal numbers at the money fields, and pointwise agreement of the
transaction lists (`bankFieldsMatch`). -/
theorem claim_C6 (s : String) (kvs : List (List Char × Json))
    (r : BankStatementSchema)
    (hp : Json.parse (pyStrip s.data) = some (.obj kvs))
    (hwt : wtBank (.obj kvs) = true)
    (hv : vBank (.obj kvs) = some r) :
    ∃ out : String,
      format_output (parse_structured_response s .bank_statement) "json"
        = .ok out ∧
      Json.parse out.data = some (bankToJson r) ∧
      bankFieldsMatch (.obj kvs) (bankToJson r) = true := by
  obtain ⟨hmatch, hob, hcb, htc, htd, htxn⟩ := bank_match_of_vBank kvs r hwt hv
  have hpr : parse_structured_response s .bank_statement
      = .structured (.bank r) := by
    refine parse_structured_eq s .bank_statement kvs (.bank r) ?_ ?_
    · rw [cleanResponseText_of_parse s.data kvs hp]
      exact hp
    · show (vBank (Json.obj kvs)).map ExtractionRecord.bank
          = some (ExtractionRecord.bank r)
      rw [hv]
      rfl
  refine ⟨(model_dump_json_bank r).asString, ?_, ?_, hmatch⟩
  · rw [hpr]
    rfl
  · show Json.parse (model_dump_json_bank r) = some (bankToJson r)
    exact bank_json_roundtrip r hob hcb htc htd htxn

theorem claim_C6_witness :
    ∃ out : String,
      format_output
        (parse_structured_response
          "\x7b\"document_type\":\"bank_statement\",\"account_holder\":\"A\",\"account_number\":\"1\",\"bank_name\":\"B\",\"statement_period\":\"P\",\"opening_balance\":1.5,\"closing_balance\":2.5,\"total_credits\":3.5,\"total_debits\":4.5,\"transactions\":[\x7b\"date\":\"d\",\"description\":\"x\",\"amount\":1.5,\"balance\":2.5,\"transaction_type\":\"credit\",\"reference\":\"r\"\x7d],\"address\":\"ad\",\"phone\":\"ph\",\"email\":\"em\"\x7d"
          .bank_statement) "json"
        = .ok out ∧
      Json.parse out.data = some (bankToJson
        ⟨.bank_statement, some "A".data, some "1".data, some "B".data,
          some "P".data, some ⟨15, -1⟩, some ⟨25, -1⟩, some ⟨35, -1⟩,
          some ⟨45, -1⟩,
          [⟨some "d".data, some "x".data, some ⟨15, -1⟩, some ⟨25, -1⟩,
            some .credit, some "r".data⟩],
          some "ad".data, some "ph".data, some "em".data⟩) ∧
      bankFieldsMatch
        (.obj [("document_type".data, .str "bank_statement".data),
          ("account_holder".data, .str "A".data),
          ("account_number".data, .str "1".data),
          ("bank_name".data, .str "B".data),
          ("statement_period".data, .str "P".data),
          ("opening_balance".data, .num ⟨15, -1⟩),
          ("closing_balance".data, .num ⟨25, -1⟩),
          ("total_credits".data, .num ⟨35, -1⟩),
          ("total_debits".data, .num ⟨45, -1⟩),
          ("transactions".data, .arr [.obj
            [("date".data, .str "d".data),
             ("description".data, .str "x".data),
             ("amount".data, .num ⟨15, -1⟩),
             ("balance".data, .num ⟨25, -1⟩),
             ("transaction_type".data, .str "credit".data),
             ("reference".data, .str "r".data)]]),
          ("address".data, .str "ad".data),
          ("phone".data, .str "ph".data),
          ("email".data, .str "em".data)])
        (bankToJson
          ⟨.bank_statement, some "A".data, some "1".data, some "B".data,
            some "P".data, some ⟨15, -1⟩, some ⟨25, -1⟩, some ⟨35, -1⟩,
            some ⟨45, -1⟩,
            [⟨some "d".data, some "x".data, some ⟨15, -1⟩, some ⟨25, -1⟩,
              some .credit, some "r".data⟩],
            some "ad".data, some "ph".data, some "em".data⟩) = true :=
  claim_C6
    "\x7b\"document_type\":\"bank_statement\",\"account_holder\":\"A\",\"account_number\":\"1\",\"bank_name\":\"B\",\"statement_period\":\"P\",\"opening_balance\":1.5,\"closing_balance\":2.5,\"total_credits\":3.5,\"total_debits\":4.5,\"transactions\":[\x7b\"date\":\"d\",\"description\":\"x\",\"amount\":1.5,\"balance\":2.5,\"transaction_type\":\"credit\",\"reference\":\"r\"\x7d],\"address\":\"ad\",\"phone\":\"ph\",\"email\":\"em\"\x7d"
    [("document_type".data, .str "bank_statement".data),
     ("account_holder".data, .str "A".data),
     ("account_number".data, .str "1".data),
     ("bank_name".data, .str "B".data),
     ("statement_period".data, .str "P".data),
     ("opening_balance".data, .num ⟨15, -1⟩),
     ("closing_balance".data, .num ⟨25, -1⟩),
     ("total_credits".data, .num ⟨35, -1⟩),
     ("total_debits".data, .num ⟨45, -1⟩),
     ("transactions".data, .arr [.obj
       [("date".data, .str "d".data),
        ("description".data, .str "x".data),
        ("amount".data, .num ⟨15, -1⟩),
        ("balance".data, .num ⟨25, -1⟩),
        ("transaction_type".data, .str "credit".data),
        ("reference".data, .str "r".data)]]),
     ("address".data, .str "ad".data),
     ("phone".data, .str "ph".data),
     ("email".data, .str "em".data)]
    ⟨.bank_statement, some "A".data, some "1".data, some "B".data,
      some "P".data, some ⟨15, -1⟩, some ⟨25, -1⟩, some ⟨35, -1⟩,
      some ⟨45, -1⟩,
      [⟨some "d".data, some "x".data, some ⟨15, -1⟩, some ⟨25, -1⟩,
        some .credit, some "r".data⟩],
      some "ad".data, some "ph".data, some "em".data⟩
    (by rfl) (by rfl) (by rfl)
